import Mathlib

/-!
# NovaMedMSC — verification of the conversational booking engine

Shallow embedding of the WhatsApp booking webhook of the NovaMedMSC
repository.  The authoritative implementation is `backend/webhook.js`;
an older near-duplicate variant of the same flow (modelled in the
`Part000` namespace below) differs in where the patient-id counter is
incremented.

Modelling conventions:
* Firestore documents become fields of an explicit `World` record;
  a Firestore transaction becomes a pure function `World → Except ε (α × World)`
  (Firestore serialises transactions and discards all buffered writes when the
  transaction callback throws, so an aborted transaction is a function that
  returns an error and no new world).
* Concurrency: Firestore executes contended transactions in some serial
  order (optimistic concurrency; first committer wins).  Properties "under
  any concurrent interleaving" are therefore stated over an arbitrary
  serialisation, i.e. an arbitrary `List` of attempts.
* The `chrono-node` library (natural-language dates) is an external
  dependency, modelled as an abstract `Oracle`.
* JavaScript regular expressions are modelled by equivalent executable
  character-list scanners; each definition's doc comment records the regex
  it implements.
-/

/-- JS `\w` word character: `[A-Za-z0-9_]`. -/
def isWordChar (c : Char) : Bool := c.isAlphanum || c == '_'

/-- ASCII upper-case letter (JS `[A-Z]`). -/
def isUpperAZ (c : Char) : Bool := 'A' ≤ c && c ≤ 'Z'

/-- ASCII lower-case letter (JS `[a-z]`). -/
def isLowerAZ (c : Char) : Bool := 'a' ≤ c && c ≤ 'z'

/-- ASCII letter (JS `[a-zA-Z]`, also `[A-Z]`/`[a-z]` under the `i` flag). -/
def isLetterAZ (c : Char) : Bool := isUpperAZ c || isLowerAZ c

/-- Does list `l` start with `p`? -/
def startsWithList : List Char → List Char → Bool
  | _, [] => true
  | [], _ :: _ => false
  | a :: as, b :: bs => a == b && startsWithList as bs

/-- JS `String.prototype.includes`: `needle` occurs contiguously in `hay`. -/
def containsSub : List Char → List Char → Bool
  | [], n => n.isEmpty
  | l@(_ :: rest), n => startsWithList l n || containsSub rest n

/-- `hay.includes(needle)` on strings. -/
def strContains (hay needle : String) : Bool := containsSub hay.data needle.data

/-- JS `parseInt(s, 10)` restricted to the non-negative case: skip leading
whitespace, read a maximal run of decimal digits, `NaN` (here `none`) if the
run is empty. -/
def jsParseIntNat (s : String) : Option Nat :=
  let ds := (s.data.dropWhile (fun c => c.isWhitespace)).takeWhile (fun c => c.isDigit)
  if ds.isEmpty then none
  else some (ds.foldl (fun a c => a * 10 + (c.toNat - 48)) 0)

/-- `s.split(":")[0]` — the prefix of the string before the first `:`
(the whole string when there is none). -/
def hourField (s : String) : String := String.mk (s.data.takeWhile (fun c => c != ':'))

/-- JS `h.toString().padStart(2, "0")` for a natural number. -/
def pad2 (n : Nat) : String := if n < 10 then "0" ++ toString n else toString n

/-- One generated slot label, `HH:00`. -/
def fmtSlot (h : Nat) : String := pad2 h ++ ":00"

/-- `hoursBetween(startHHMM, endHHMM)` from `backend/webhook.js`:
parse the hour field of both `HH:MM` strings with `parseInt` and push
`h.toString().padStart(2,"0") + ":00"` for every `h` from start to end
inclusive.  If either hour field fails to parse (`NaN`), the JS loop guard
`h <= e` is false and the result is empty. -/
def hoursBetween (startHHMM endHHMM : String) : List String :=
  match jsParseIntNat (hourField startHHMM), jsParseIntNat (hourField endHHMM) with
  | some s, some e => (List.range' s (e + 1 - s)).map fmtSlot
  | _, _ => []

/-- Static department table of `backend/webhook.js` (`departmentSlots`):
opening time, closing time, capacity. -/
structure DeptInfo where
  startTime : String
  endTime : String
  capacity : Nat
deriving Repr, DecidableEq

/-- `departmentSlots` from `backend/webhook.js`. -/
def departmentSlots : List (String × DeptInfo) :=
  [("Cardiology", ⟨"09:00", "12:00", 10⟩),
   ("Neurology", ⟨"14:00", "17:00", 8⟩),
   ("Orthopedics", ⟨"10:00", "13:00", 6⟩),
   ("Pediatrics", ⟨"15:00", "18:00", 12⟩),
   ("General Medicine", ⟨"09:00", "12:00", 10⟩),
   ("Dermatology", ⟨"09:00", "18:00", 15⟩)]

/-- `departmentSlots[name]` — JS object property lookup. -/
def lookupDept (name : String) : Option DeptInfo :=
  (departmentSlots.find? (fun p => p.1 == name)).map Prod.snd

/-- `Object.keys(departmentSlots)` in declaration order. -/
def departmentNames : List String := departmentSlots.map Prod.fst


/-! ## Persisted data model (Firestore collections) -/

/-- A document of the `patients` collection as written by
`attemptRegistration` in `backend/webhook.js` (the `createdAt` wall-clock
timestamp is omitted: no claim observes it). -/
structure PatientRecord where
  PatientID : String
  FirstName : String
  LastName : String
  Gender : String
  Address : String
  Email : String
  PhoneNumber : String
  department : String
  RegistrationDate : String
  RegistrationTime : String
deriving Repr, DecidableEq

/-- A document of the `appointments` collection (the Slot Ledger). -/
structure SlotEntry where
  department : String
  date : String
  time : String
  capacity : Nat
  count : Nat
  patients : List String
deriving Repr, DecidableEq

/-- The mutable shared store: the `appointments` ledger (keyed by slot id),
the `metadata/patient_counter` document (`none` = document absent) and the
`patients` collection (document id, document). -/
structure World where
  appointments : String → Option SlotEntry
  counter : Option Nat
  patients : List (String × PatientRecord)

/-- The empty store. -/
def World.empty : World := ⟨fun _ => none, none, []⟩

/-- `docRef.set(v)` on a keyed collection held as an association list:
overwrite the document if the id exists, otherwise append it. -/
def setDoc (l : List (String × PatientRecord)) (k : String) (v : PatientRecord) :
    List (String × PatientRecord) :=
  if l.any (fun p => p.1 == k) then l.map (fun p => if p.1 == k then (k, v) else p)
  else l ++ [(k, v)]

/-- Fetch a patient document by id. -/
def findDoc (l : List (String × PatientRecord)) (k : String) : Option PatientRecord :=
  (l.find? (fun p => p.1 == k)).map Prod.snd

/-- Does a patient record carry the slot key `(D, T, H)`? -/
def recMatches (r : PatientRecord) (D T H : String) : Bool :=
  r.department == D && r.RegistrationDate == T && r.RegistrationTime == H

/-- Number of Patient Records keyed by `(department, date, time)`. -/
def countKey (l : List (String × PatientRecord)) (D T H : String) : Nat :=
  (l.filter (fun p => recMatches p.2 D T H)).length

/-- The slot-ledger key `` `${department}_${date}_${time}` ``. -/
def mkSlotId (D T H : String) : String := D ++ "_" ++ T ++ "_" ++ H

/-- Occupant count the transaction reads for a slot id: the `count` field,
absence of the document meaning `0`. -/
def ledgerCountAt (w : World) (sid : String) : Nat :=
  match w.appointments sid with
  | none => 0
  | some e => e.count

/-- Occupant list of a slot id (`[]` when the document is absent). -/
def ledgerPatientsAt (w : World) (sid : String) : List String :=
  match w.appointments sid with
  | none => []
  | some e => e.patients

/-- The conversation `data` object: fields collected so far.
`none` models a JS property that is absent/`undefined`. -/
structure RegData where
  firstName : Option String := none
  lastName : Option String := none
  gender : Option String := none
  address : Option String := none
  email : Option String := none
  phoneNumber : Option String := none
  department : Option String := none
  registrationDate : Option String := none
  registrationTime : Option String := none
deriving Repr, DecidableEq

/-- JS truthiness of an optional string: `undefined` and `""` are falsy. -/
def jsTruthy : Option String → Bool
  | none => false
  | some s => s != ""

/-- The value the counter document contributes in
`(snap.data().count || 1000) + 1`: absence of the document or a falsy stored
count both behave like `1000`. -/
def cVal (counter : Option Nat) : Nat :=
  match counter with
  | none => 1000
  | some c => if c = 0 then 1000 else c

/-- Identifier string `` `P${count}` ``. -/
def pidStr (n : Nat) : String := "P" ++ toString n

/-- `generatePatientId(transaction)` from `backend/webhook.js`: read the
`metadata/patient_counter` document inside the enclosing transaction, compute
`(count || 1000) + 1` (or `1001` when the document is absent), buffer the
write of the new count, and return the new numeric value.  Returns
(new numeric id, updated counter document). -/
def generatePatientId (counter : Option Nat) : Nat × Option Nat :=
  (cVal counter + 1, some (cVal counter + 1))

/-- Errors thrown by `attemptRegistration` in `backend/webhook.js`,
with their `err.message` texts. -/
inductive RegError
  | departmentMissing
  | invalidDepartment
  | timeNotAllowed
  | undefinedDateField
  | slotFull
deriving Repr, DecidableEq

/-- The `err.message` strings of `backend/webhook.js`.
`undefinedDateField` models the Firestore client rejecting a document write
containing an `undefined` field value (`RegistrationDate` when
`data.registrationDate` was never collected); the transaction then aborts. -/
def RegError.message : RegError → String
  | .departmentMissing => "Department missing."
  | .invalidDepartment => "Invalid department."
  | .timeNotAllowed => "Selected time not allowed for the department."
  | .undefinedDateField => "Unsupported field value: undefined"
  | .slotFull => "Slot full"

/-- The patient document `tx.set(patientRef, {...})` writes (the JS
`data.x || ""` defaults coincide with `getD ""` because every collected
value is a non-empty string or the explicit `""`). -/
def patientRecOf (data : RegData) (D T H pid : String) : PatientRecord :=
  { PatientID := pid
    FirstName := data.firstName.getD ""
    LastName := data.lastName.getD ""
    Gender := data.gender.getD ""
    Address := data.address.getD ""
    Email := data.email.getD ""
    PhoneNumber := data.phoneNumber.getD ""
    department := D
    RegistrationDate := T
    RegistrationTime := H }

/-- The upserted ledger entry: capacity from the catalog, previous count
plus one, the new identifier appended to the occupant list. -/
def slotEntryOf (w : World) (dept : DeptInfo) (D T H pid : String) : SlotEntry :=
  { department := D, date := T, time := H,
    capacity := dept.capacity, count := ledgerCountAt w (mkSlotId D T H) + 1,
    patients := ledgerPatientsAt w (mkSlotId D T H) ++ [pid] }

/-- The store after the transaction of a successful attempt commits. -/
def commitWorld (w : World) (data : RegData) (dept : DeptInfo) (D T H : String) : World :=
  let pid := pidStr (cVal w.counter + 1)
  { appointments := fun k =>
      if k = mkSlotId D T H then some (slotEntryOf w dept D T H pid) else w.appointments k
    counter := some (cVal w.counter + 1)
    patients := setDoc w.patients pid (patientRecOf data D T H pid) }

/-- `attemptRegistration(data)` from `backend/webhook.js`.

1. `!data.department` → throw `Department missing.` (no transaction).
2. unknown department → throw `Invalid department.` (no transaction).
3. time not among `hoursBetween(dept.times[0], dept.times[1])` → throw
   (no transaction).
4. otherwise run one Firestore transaction: read the ledger document for
   `` `${department}_${date}_${time}` ``; `count >= capacity` → throw
   `Slot full` (transaction aborts, nothing written); else allocate the id
   via `generatePatientId(tx)`, write the patient document and upsert the
   ledger entry with `count + 1` and the id appended — all in the same
   commit.  An abort returns `Except.error` and no world: Firestore discards
   every buffered write of an aborted transaction. -/
def attemptRegistration (w : World) (data : RegData) : Except RegError (String × World) :=
  if !(jsTruthy data.department) then .error .departmentMissing
  else
    match data.department with
    | none => .error .departmentMissing
    | some D =>
      match lookupDept D with
      | none => .error .invalidDepartment
      | some dept =>
        match data.registrationTime with
        | none => .error .timeNotAllowed
        | some H =>
          if H ∉ hoursBetween dept.startTime dept.endTime then .error .timeNotAllowed
          else
            -- an undefined date is interpolated into the slot id as the
            -- string "undefined"; the capacity check still runs against
            -- that id, and only afterwards does `tx.set` reject the
            -- undefined `RegistrationDate` field value
            if ledgerCountAt w (mkSlotId D (data.registrationDate.getD "undefined") H)
                ≥ dept.capacity then .error .slotFull
            else
              match data.registrationDate with
              | none => .error .undefinedDateField
              | some T => .ok (pidStr (cVal w.counter + 1), commitWorld w data dept D T H)

/-- The error of an attempt, `none` on success (projection used in
decidable statements: `World` carries a function and has no decidable
equality). -/
def attemptErr (r : Except RegError (String × World)) : Option RegError :=
  match r with
  | .error e => some e
  | .ok _ => none

/-- The issued identifier of an attempt, `none` on failure. -/
def attemptPid (r : Except RegError (String × World)) : Option String :=
  match r with
  | .error _ => none
  | .ok (pid, _) => some pid

/-- The world after one reservation attempt: the committed world on success,
the unchanged world when the attempt throws. -/
def regStep (w : World) (data : RegData) : World :=
  match attemptRegistration w data with
  | .ok (_, w') => w'
  | .error _ => w

/-- A serialised trace of reservation attempts (Firestore serialises
contending transactions; see the module comment). -/
def runAll (attempts : List RegData) (w : World) : World :=
  attempts.foldl regStep w

/-- The same trace, also collecting, for every attempt that succeeds, the
issued identifier string together with its numeric part, in issuance
order. -/
def runTrace : List RegData → World → World × List (String × Nat)
  | [], w => (w, [])
  | d :: ds, w =>
    match attemptRegistration w d with
    | .ok (pid, w') =>
      let (wf, ids) := runTrace ds w'
      (wf, (pid, cVal w.counter + 1) :: ids)
    | .error _ => runTrace ds w

/-! ## The `part_000` variant of the booking flow

The repository contains an older near-duplicate of the webhook
(`src/unnamed/part_000`, a Firebase `functions.https.onRequest` version).
Its `generatePatientId` runs in its **own** Firestore transaction that
commits before the slot transaction starts, and it returns the *pre*-increment
counter value (`P1000` first). -/

namespace Part000

/-- `generatePatientId()` from `part_000`: one self-contained transaction —
`current = snap.exists ? snap.data().count : 1000`, id `` `P${current}` ``,
store `count: current + 1`.  Returns (numeric id, updated counter doc).
This transaction commits on its own. -/
def generatePatientId (counter : Option Nat) : Nat × Option Nat :=
  match counter with
  | none => (1000, some 1001)
  | some c => (c, some (c + 1))

/-- `attemptRegistration(data)` from `part_000`.  Differences from the
`backend/webhook.js` version: no time-window validation, and the patient id
is allocated by `await generatePatientId()` — a separate transaction that has
already committed — **before** the slot transaction checks capacity.  The
result therefore carries a world even on error: a `Slot full` abort keeps the
already-committed counter increment. -/
def attemptRegistration (w : World) (data : RegData) : World × Except RegError String :=
  match data.department with
  | none => (w, .error .invalidDepartment)
  | some D =>
    match lookupDept D with
    | none => (w, .error .invalidDepartment)
    | some dept =>
      let (n, counter') := generatePatientId w.counter
      let pid := pidStr n
      let w₁ : World := { w with counter := counter' }
      match data.registrationDate, data.registrationTime with
      | some T, some H =>
        let sid := mkSlotId D T H
        let currentCount := ledgerCountAt w₁ sid
        if currentCount ≥ dept.capacity then (w₁, .error .slotFull)
        else
          let record : PatientRecord :=
            { PatientID := pid
              FirstName := (data.firstName.getD "")
              LastName := (data.lastName.getD "")
              Gender := (data.gender.getD "")
              Address := (data.address.getD "")
              Email := (data.email.getD "")
              PhoneNumber := (data.phoneNumber.getD "")
              department := D
              RegistrationDate := T
              RegistrationTime := H }
          let entry : SlotEntry :=
            { department := D, date := T, time := H,
              capacity := dept.capacity, count := currentCount + 1,
              patients := ledgerPatientsAt w₁ sid ++ [pid] }
          ({ appointments := fun k => if k = sid then some entry else w₁.appointments k
             counter := counter'
             patients := setDoc w₁.patients pid record }, .ok pid)
      | _, _ => (w₁, .error .undefinedDateField)

end Part000

/-! ## NLP helpers of `backend/webhook.js`

Each JS regular expression is implemented as an executable character-list
scanner with the same match semantics (leftmost match, greedy with
backtracking where the regex backtracks). -/

/-- Lower-case a string character-wise (JS `toLowerCase`, ASCII range). -/
def toLowerStr (s : String) : String := String.mk (s.data.map Char.toLower)

/-- JS `String.prototype.trim`. -/
def trimStr (s : String) : String :=
  String.mk (((s.data.dropWhile (fun c => c.isWhitespace)).reverse.dropWhile
    (fun c => c.isWhitespace)).reverse)

/-- Maximal word-character runs of a string, in order. -/
def wordTokens (fuel : Nat) (l : List Char) : List (List Char) :=
  match fuel, l with
  | 0, _ => []
  | _, [] => []
  | fuel + 1, c :: rest =>
    if isWordChar c then
      let run := rest.takeWhile isWordChar
      (c :: run) :: wordTokens fuel (rest.dropWhile isWordChar)
    else wordTokens fuel rest

/-- `isGreeting(text)`: the regex `/\b(hi|hey|hello|hii|hy)\b/i`.  All five
alternatives consist of word characters only, so `\b…\b` matches exactly when
some maximal word-character run of the text equals one of them
case-insensitively. -/
def isGreeting (text : String) : Bool :=
  (wordTokens (text.data.length + 1) text.data).any (fun t =>
    let lt := String.mk (t.map Char.toLower)
    lt == "hi" || lt == "hey" || lt == "hello" || lt == "hii" || lt == "hy")

/-- `normalizeGender(text)` from `backend/webhook.js` (note the source quirk:
`"female"` contains `"male"`, so any text containing `female` normalises to
`Male`). -/
def normalizeGender (text : String) : Option String :=
  let t := toLowerStr text
  if strContains t "male" || t == "m" then some "Male"
  else if strContains t "female" || t == "f" then some "Female"
  else if strContains t "other" || strContains t "prefer not" || t == "o" then some "Other"
  else none

/-- At least `k` consecutive decimal digits starting here. -/
def digitRunFrom : Nat → List Char → Bool
  | 0, _ => true
  | _ + 1, [] => false
  | k + 1, c :: r => c.isDigit && digitRunFrom k r

/-- Some position of the list starts a run of at least `k` digits. -/
def hasDigitRun (k : Nat) : List Char → Bool
  | [] => k == 0
  | l@(_ :: r) => digitRunFrom k l || hasDigitRun k r

/-- `validatePhone(text)`: strip every character other than digits and `+`
(`text.replace(/[^\d\+]/g, "")`), then test `/\+?\d{10,14}/` — an unanchored
search, which succeeds exactly when the stripped string contains a run of at
least 10 consecutive digits. -/
def validatePhone (text : String) : Option String :=
  let normalized := String.mk (text.data.filter (fun c => c.isDigit || c == '+'))
  if hasDigitRun 10 normalized.data then some normalized else none

/-- JS `\S`: any non-whitespace character. -/
def nonWs (c : Char) : Bool := !c.isWhitespace

/-- After an `@`: match `\S+\.\S+` on a prefix of the remaining text — at
least one non-whitespace character, then a `.` whose successor is
non-whitespace.  `n` counts the non-whitespace characters consumed so far. -/
def seekDot : Nat → List Char → Bool
  | _, [] => false
  | n, c :: rest =>
    (c == '.' && decide (1 ≤ n) && (match rest with | c₂ :: _ => nonWs c₂ | [] => false))
    || (nonWs c && seekDot (n + 1) rest)

/-- `validateEmail(text)`: the test `/\S+@\S+\.\S+/.test(text)` — some `@`
preceded by a non-whitespace character and followed by `\S+\.\S+`; the
original text is returned unchanged on success. -/
def emailScan : Option Char → List Char → Bool
  | _, [] => false
  | prev, c :: rest =>
    (c == '@' && (match prev with | some p => nonWs p | none => false) && seekDot 0 rest)
    || emailScan (some c) rest

/-- `validateEmail(text)` from `backend/webhook.js`. -/
def validateEmail (text : String) : Option String :=
  if emailScan none text.data then some text else none

/-- `normalizeDepartment(text)`: the first catalog department whose
lower-cased name occurs in the lower-cased text. -/
def normalizeDepartment (text : String) : Option String :=
  if text == "" then none
  else
    let input := toLowerStr text
    departmentNames.find? (fun d => strContains input (toLowerStr d))

/-- `parseChoice(text)`: the regex `/\b([1-9][0-9]?)\b/` — the leftmost one-
or two-digit number delimited by word boundaries, two digits preferred
(greedy), as `parseInt` value. -/
def parseChoiceAux : Option Char → List Char → Option Nat
  | _, [] => none
  | prev, c :: rest =>
    let boundaryBefore := match prev with | none => true | some p => !isWordChar p
    if boundaryBefore && '1' ≤ c && c ≤ '9' then
      match rest with
      | [] => some (c.toNat - 48)
      | c₂ :: rest₂ =>
        if '0' ≤ c₂ && c₂ ≤ '9'
            && (match rest₂ with | [] => true | c₃ :: _ => !isWordChar c₃) then
          some ((c.toNat - 48) * 10 + (c₂.toNat - 48))
        else if !isWordChar c₂ then some (c.toNat - 48)
        else parseChoiceAux (some c) rest
    else parseChoiceAux (some c) rest

/-- `parseChoice(text)` from `backend/webhook.js`. -/
def parseChoice (text : String) : Option Nat := parseChoiceAux none text.data


/-! ### Name extraction

`extractNameFromSentence(text)` tries, in order:
1. `/\bmy name is ([A-Z][a-z]+(?:\s[A-Z][a-z]+)*)/i`
2. `/\bi am ([A-Z][a-z]+(?:\s[A-Z][a-z]+)*)/i`
3. `/\b([A-Z][a-z]+(?:\s[A-Z][a-z]+)*)\b/`  (case-sensitive, with a final `\b`)

A "cap word" is one `[A-Z]` character followed by a maximal non-empty
`[a-z]+` run; under the `i` flag both classes match any ASCII letter. -/

/-- Match one cap word at the head of the list: first character in the
upper class, then a maximal non-empty run of the lower class.  Returns the
word and the rest. -/
def capWordAt (ci : Bool) (l : List Char) : Option (List Char × List Char) :=
  match l with
  | [] => none
  | c :: rest =>
    if (if ci then isLetterAZ c else isUpperAZ c) then
      let run := rest.takeWhile (fun x => if ci then isLetterAZ x else isLowerAZ x)
      if run.isEmpty then none
      else some (c :: run, rest.dropWhile (fun x => if ci then isLetterAZ x else isLowerAZ x))
    else none

/-- The `(?:\s[A-Z][a-z]+)*` units following a cap word, structurally maximal
(greedy): each unit is one whitespace character followed by a cap word.
Returns (list of units as (separator, word), rest after the last unit). -/
def capUnits (ci : Bool) (fuel : Nat) (l : List Char) : List (Char × List Char) × List Char :=
  match fuel, l with
  | 0, _ => ([], l)
  | _, [] => ([], [])
  | fuel + 1, c :: rest =>
    if c.isWhitespace then
      match capWordAt ci rest with
      | some (w, rest') =>
        let (us, fin) := capUnits ci fuel rest'
        ((c, w) :: us, fin)
      | none => ([], l)
    else ([], l)

/-- Flatten units back into captured characters. -/
def flattenUnits (us : List (Char × List Char)) : List Char :=
  us.foldr (fun u acc => u.1 :: u.2 ++ acc) []

/-- There is a word boundary between the end of the capture (which always
ends in a word character) and this rest. -/
def boundaryOk : List Char → Bool
  | [] => true
  | c :: _ => !isWordChar c

/-- Match pattern 3's capture starting exactly here: greedy cap-word chain,
then `\b`; if the final boundary fails the engine backtracks by dropping the
last unit (the position then sits before that unit's whitespace separator, so
the boundary holds); with no unit left the match at this position fails. -/
def pattern3At (l : List Char) : Option (List Char) :=
  match capWordAt false l with
  | none => none
  | some (w, rest) =>
    let (us, fin) := capUnits false rest.length rest
    if boundaryOk fin then some (w ++ flattenUnits us)
    else
      match us with
      | [] => none
      | _ => some (w ++ flattenUnits us.dropLast)

/-- Leftmost match of pattern 3: scan for a position with a word boundary
before it where `pattern3At` succeeds. -/
def scanPattern3 : Option Char → List Char → Option (List Char)
  | _, [] => none
  | prev, l@(c :: rest) =>
    let bOk := match prev with | none => true | some p => !isWordChar p
    match (if bOk then pattern3At l else none) with
    | some cap => some cap
    | none => scanPattern3 (some c) rest

/-- Leftmost match of `/\b<kw>([A-Z][a-z]+(?:\s[A-Z][a-z]+)*)/i` where `kw`
is a literal keyword (`"my name is "` / `"i am "`, lower case, starting with
a letter): scan for a boundary-preceded case-insensitive occurrence of `kw`
followed by a case-insensitive cap-word chain.  There is no final `\b` in
patterns 1 and 2, so the chain is taken fully greedily. -/
def scanKeyword (kw : List Char) : Option Char → List Char → Option (List Char)
  | _, [] => none
  | prev, l@(c :: rest) =>
    let bOk := match prev with | none => true | some p => !isWordChar p
    let kwHere := startsWithList (l.map Char.toLower) kw
    match (if bOk && kwHere then
             match capWordAt true (l.drop kw.length) with
             | some (w, rest') =>
               let (us, _) := capUnits true rest'.length rest'
               some (w ++ flattenUnits us)
             | none => none
           else none) with
    | some cap => some cap
    | none => scanKeyword kw (some c) rest

/-- `extractNameFromSentence(text)` from `backend/webhook.js`
(`m[1].trim()` is the identity here: a captured chain never starts or ends
with whitespace). -/
def extractNameFromSentence (text : String) : Option String :=
  match scanKeyword "my name is ".data none text.data with
  | some cap => some (String.mk cap)
  | none =>
    match scanKeyword "i am ".data none text.data with
    | some cap => some (String.mk cap)
    | none => (scanPattern3 none text.data).map String.mk

/-! ### Phone and email extraction -/

/-- Largest index `j ≥ 8` into `run` holding a digit (the regex
`[\d\-\s]{8,}` is greedy and backtracks until the final `\d` matches). -/
def lastDigitIdxFrom8 (run : List Char) : Option Nat :=
  (((List.range run.length).filter (fun j =>
      decide (8 ≤ j) && (match run.drop j with | d :: _ => d.isDigit | [] => false))).reverse).head?

/-- Match `/\+?\d[\d\-\s]{8,}\d/` starting exactly here; returns the matched
characters. -/
def phoneAt (l : List Char) : Option (List Char) :=
  let (plus, l') := match l with
    | '+' :: r => (['+'], r)
    | _ => (([] : List Char), l)
  match l' with
  | c :: rest =>
    if c.isDigit then
      let run := rest.takeWhile (fun x => x.isDigit || x == '-' || x.isWhitespace)
      match lastDigitIdxFrom8 run with
      | some j => some (plus ++ c :: run.take (j + 1))
      | none => none
    else none
  | [] => none

/-- Leftmost match of the phone regex (no word-boundary anchors). -/
def phoneScan : List Char → Option (List Char)
  | [] => none
  | l@(_ :: rest) =>
    match phoneAt l with
    | some m => some m
    | none => phoneScan rest

/-- `extractPhone(text)`: leftmost match of `/(\+?\d[\d\-\s]{8,}\d)/`, then
`validatePhone` on the matched substring (only the first match is tried). -/
def extractPhone (text : String) : Option String :=
  match phoneScan text.data with
  | some m => validatePhone (String.mk m)
  | none => none

/-- Character class `[a-zA-Z0-9._%+-]` (local part of the email regex). -/
def emailClass1 (c : Char) : Bool :=
  c.isAlphanum || c == '.' || c == '_' || c == '%' || c == '+' || c == '-'

/-- Character class `[a-zA-Z0-9.-]` (domain part of the email regex). -/
def emailClass2 (c : Char) : Bool := c.isAlphanum || c == '.' || c == '-'

/-- Match `/[a-zA-Z0-9._%+-]+@[a-zA-Z0-9.-]+\.[a-zA-Z]{2,}/` starting
exactly here: a non-empty class-1 run must be followed by `@`; inside the
maximal class-2 run after the `@`, the greedy engine picks the **last**
index `j ≥ 1` holding a `.` followed by at least two letters, and `{2,}`
then consumes the maximal letter run. -/
def emailAt (l : List Char) : Option (List Char) :=
  let run1 := l.takeWhile emailClass1
  if run1.isEmpty then none
  else
    match l.drop run1.length with
    | '@' :: rest =>
      let run2 := rest.takeWhile emailClass2
      let good := fun (j : Nat) =>
        decide (1 ≤ j) && (match run2.drop j with
          | '.' :: tl => decide (2 ≤ (tl.takeWhile isLetterAZ).length)
          | _ => false)
      match (((List.range run2.length).filter good).reverse).head? with
      | some j =>
        some (run1 ++ '@' :: (run2.take j ++ '.' :: (run2.drop (j + 1)).takeWhile isLetterAZ))
      | none => none
    | _ => none

/-- Leftmost match of the email regex. -/
def emailScanCap : List Char → Option (List Char)
  | [] => none
  | l@(_ :: rest) =>
    match emailAt l with
    | some m => some m
    | none => emailScanCap rest

/-- `extractEmail(text)` from `backend/webhook.js`. -/
def extractEmail (text : String) : Option String := (emailScanCap text.data).map String.mk

/-! ### The chrono-node oracle -/

/-- The observable outcome of a `chrono-node` parse: the calendar date part
of `toISOString()`, `getHours()`/`getMinutes()`, and the parser's
`isOnlyDate` flag (`none` models the JS property being `undefined`; the
source compares it with `=== false`). -/
structure ChronoDate where
  isoDate : String
  hour : Nat
  minute : Nat
  isOnlyDate : Option Bool
deriving Repr, DecidableEq

/-- External inputs of the webhook: the `chrono-node` library and the current
date.  `parseDate s` models `chrono.parseDate(s)`; `parseFirst s` models
`chrono.parse(s)[0]` (outer `none` = no result, inner `none` = a result with
a `null` start). -/
structure Oracle where
  parseDate : String → Option ChronoDate
  parseFirst : String → Option (Option ChronoDate)
  today : String

/-- `extractDateTime(text)` from `backend/webhook.js`: `(dateStr, timeStr)`;
`timeStr` is set only when `p.start.isOnlyDate === false`. -/
def extractDateTime (o : Oracle) (text : String) : Option String × Option String :=
  match o.parseFirst text with
  | none => (none, none)
  | some none => (none, none)
  | some (some d) =>
    (some d.isoDate,
     if d.isOnlyDate == some false then some (pad2 d.hour ++ ":" ++ pad2 d.minute) else none)


/-! ## Conversation state store -/

/-- A `registration_states` document: current step (`none` = no active
conversation), collected data, and the `updatedAt` timestamp in epoch
milliseconds (`none` on the in-memory fresh state only). -/
structure StoredDoc where
  step : Option String
  data : RegData
  updatedAt : Option Nat
deriving Repr, DecidableEq

/-- The fresh state `{ step: null, data: {}, updatedAt: null }`. -/
def freshState : StoredDoc := ⟨none, {}, none⟩

/-- `getState(sender)` from `backend/webhook.js`: missing document → fresh
state; document older than 30 minutes (strictly, in milliseconds) →
`resetState` and fresh state; otherwise the document as stored.  Returns
(state handed to the caller, stored document after the read, whether the
document was deleted).  JS computes `Date.now() - updatedAt.toMillis()`;
a clock running backwards gives a negative age there and `0` here — on
either side the age is not `> 30 min`, so the outcomes agree. -/
def getState (stored : Option StoredDoc) (nowMs : Nat) : StoredDoc × Option StoredDoc × Bool :=
  match stored with
  | none => (freshState, none, false)
  | some st =>
    match st.updatedAt with
    | none => (st, some st, false)
    | some t =>
      if nowMs - t > 30 * 60 * 1000 then (freshState, none, true)
      else (st, some st, false)

/-- The observable outcome of handling one inbound message: resulting store,
resulting `registration_states` document for the sender, outbound texts in
send order, whether `setState` ran, whether `resetState` ran, and the name
of an uncaught JS error if the handler crashed (effects performed before the
crash are retained). -/
structure Effects where
  world : World
  stored : Option StoredDoc
  messages : List String
  wrote : Bool
  deletedState : Bool
  crashed : Option String

/-! ### Outbound message texts (verbatim from `backend/webhook.js`) -/

def welcomeMsg : String :=
  "Welcome to NovaMed Multispeciality Care 👋\nSay \x27patient registration\x27 to begin, or send details in one sentence."

def startMsg : String := "Welcome! Let\x27s get you registered. What\x27s your *First Name*?"

def continueMsg : String := "Let\x27s continue your registration. What\x27s your *First Name*?"

def notRecognizedMsg : String :=
  "Say \x27patient registration\x27 to begin registration, or send your full details in one sentence."

def errContinueMsg (m : String) : String :=
  "❌ " ++ m ++ ". Let\x27s continue step-by-step. What\x27s your first name?"

def oneShotSuccessMsg (pid : String) (d : RegData) : String :=
  "✅ Registration complete! Patient ID: " ++ pid ++ "\nDept: " ++ d.department.getD "" ++
  "\nDate: " ++ d.registrationDate.getD "" ++ "\nTime: " ++ d.registrationTime.getD ""

def lastNamePrompt : String := "Thanks — last name please (or type \x27-\x27 if none)."

def genderPrompt : String := "Select Gender:\n1. Male\n2. Female\n3. Other"

def genderInvalidMsg : String := "Please select gender: 1 (Male), 2 (Female), 3 (Other)."

def addressPrompt : String := "Please enter your address."

def emailPrompt : String := "Please enter your email (or type \x27skip\x27)."

def emailInvalidMsg : String :=
  "That doesn\x27t look like a valid email. Please re-enter or type \x27skip\x27."

def phonePrompt : String := "Please enter your phone number (include country code)."

def phoneInvalidMsg : String := "Invalid phone format. Please send a valid phone number."

/-- `"Select Department:\n"` followed by one numbered line per catalog key. -/
def deptListPrompt : String :=
  "Select Department:\n" ++
  String.join (departmentNames.enum.map (fun p => toString (p.1 + 1) ++ ". " ++ p.2 ++ "\n"))

def deptInvalidMsg : String := "Invalid department. Reply with the number or name."

def datePrompt : String := "Enter registration date (e.g., \x27tomorrow\x27 or \x272025-11-10\x27)."

def dateUnparseableMsg : String := "Couldn\x27t parse a future date. Please enter again."

def dateNotFutureMsg : String := "Please pick a future date."

def availHeader (D T : String) : String := "Available times for " ++ D ++ " on " ++ T ++ ":\n"

def timesFooter : String := "Reply with the number or the time (e.g., 10:00)."

def timeInvalidMsg : String := "Invalid time. Choose from the options sent."

def stepSuccessMsg (pid : String) (d : RegData) : String :=
  "✅ Registration successful!\nPatient ID: " ++ pid ++ "\nDepartment: " ++ d.department.getD "" ++
  "\nDate: " ++ d.registrationDate.getD "" ++ "\nTime: " ++ d.registrationTime.getD ""

def errRetryMsg (m : String) : String :=
  "❌ " ++ m ++ ". Please choose a different time or date."

def resetMsg : String := "Session reset. Say \x27patient registration\x27 to begin again."

/-- The uncaught error of `backend/webhook.js` line 411: `doctorLimits` is a
free identifier in that module (it exists only inside React components of
other files), so evaluating it throws. -/
def doctorLimitsRefErr : String := "ReferenceError: doctorLimits is not defined"

/-- The uncaught error when `departmentSlots[d.department]` is `undefined`
and `.times` is read from it. -/
def deptTypeErr : String := "TypeError: departmentSlots[d.department] is undefined"

/-! ### The dialogue step switch -/

/-- JS `<` on strings: lexicographic comparison of code units. -/
def jsStrLtList : List Char → List Char → Bool
  | [], [] => false
  | [], _ :: _ => true
  | _ :: _, [] => false
  | a :: as, b :: bs =>
    if a.toNat < b.toNat then true
    else if b.toNat < a.toNat then false
    else jsStrLtList as bs

/-- JS `a <= b` on strings. -/
def jsStrLe (a b : String) : Bool := !jsStrLtList b.data a.data

/-- Is the whole string one or two decimal digits (`/^\d{1,2}$/`)? -/
def isOneOrTwoDigits (s : String) : Bool :=
  s.data.all (fun c => c.isDigit) && (s.data.length == 1 || s.data.length == 2)

/-- JS `s.padStart(2, "0")`. -/
def padStart2 (s : String) : String := if s.data.length == 1 then "0" ++ s else s

/-- The free-text time normalisation of the `registrationTime` case
(lines 430–433): trim; a bare one-or-two-digit answer becomes
`padStart(2,"0") + ":00"`; a `chrono.parseDate` hit replaces the candidate
by `getHours().padStart(2,"0") + ":00"`. -/
def timeCandidate (o : Oracle) (text : String) : String :=
  let cand0 := trimStr text
  let cand1 := if isOneOrTwoDigits cand0 then padStart2 cand0 ++ ":00" else cand0
  match o.parseDate cand1 with
  | some dt => pad2 dt.hour ++ ":00"
  | none => cand1

/-- One step of the `switch (s.step)` of `processMessage` in
`backend/webhook.js` (lines 281–458), for a state with an active step.
`text` is the already-trimmed inbound text. -/
def handleStep (o : Oracle) (nowMs : Nat) (w : World) (st : StoredDoc) (text : String) :
    Effects :=
  let d := st.data
  let adv := fun (d' : RegData) (next : String) (msg : String) =>
    Effects.mk w (some ⟨some next, d', some nowMs⟩) [msg] true false none
  let stay := fun (msg : String) => Effects.mk w (some st) [msg] false false none
  match st.step with
  | some "firstName" => adv { d with firstName := some text } "lastName" lastNamePrompt
  | some "lastName" =>
    adv { d with lastName := some (if text == "-" then "" else text) } "gender" genderPrompt
  | some "gender" =>
    let choice := parseChoice text
    if choice == some 1 then adv { d with gender := some "Male" } "address" addressPrompt
    else if choice == some 2 then adv { d with gender := some "Female" } "address" addressPrompt
    else if choice == some 3 then adv { d with gender := some "Other" } "address" addressPrompt
    else
      match normalizeGender text with
      | some g => adv { d with gender := some g } "address" addressPrompt
      | none => stay genderInvalidMsg
  | some "address" => adv { d with address := some text } "email" emailPrompt
  | some "email" =>
    if toLowerStr text == "skip" then
      adv { d with email := some "" } "phoneNumber" phonePrompt
    else
      match validateEmail text with
      | none => stay emailInvalidMsg
      | some e => adv { d with email := some e } "phoneNumber" phonePrompt
  | some "phoneNumber" =>
    match validatePhone text with
    | none => stay phoneInvalidMsg
    | some p => adv { d with phoneNumber := some p } "department" deptListPrompt
  | some "department" =>
    let choice := parseChoice text
    let byName := fun (_ : Unit) =>
      match normalizeDepartment text with
      | some dep => adv { d with department := some dep } "registrationDate" datePrompt
      | none => stay deptInvalidMsg
    (match choice with
     | some c =>
       if 1 ≤ c && c ≤ departmentNames.length then
         adv { d with department := some (departmentNames.getD (c - 1) "") }
           "registrationDate" datePrompt
       else byName ()
     | none => byName ())
  | some "registrationDate" =>
    match o.parseDate text with
    | none => stay dateUnparseableMsg
    | some r =>
      let dateStr := r.isoDate
      if jsStrLe dateStr o.today then stay dateNotFutureMsg
      else
        let d' := { d with registrationDate := some dateStr }
        let st' : StoredDoc := ⟨some "registrationTime", d', some nowMs⟩
        -- `setState` runs (line 399) before the slot display loop
        match d'.department with
        | none => Effects.mk w (some st') [] true false (some deptTypeErr)
        | some D =>
          match lookupDept D with
          | none => Effects.mk w (some st') [] true false (some deptTypeErr)
          | some info =>
            let times := hoursBetween info.startTime info.endTime
            if times.isEmpty then
              Effects.mk w (some st') [availHeader D dateStr ++ timesFooter] true false none
            else
              -- first loop iteration evaluates the free identifier `doctorLimits`
              Effects.mk w (some st') [] true false (some doctorLimitsRefErr)
  | some "registrationTime" =>
    match d.department with
    | none => Effects.mk w (some st) [] false false (some deptTypeErr)
    | some D =>
      match lookupDept D with
      | none => Effects.mk w (some st) [] false false (some deptTypeErr)
      | some info =>
        let times := hoursBetween info.startTime info.endTime
        let proceed := fun (chosen : String) =>
          let d' := { d with registrationTime := some chosen }
          match attemptRegistration w d' with
          | .ok (pid, w') => Effects.mk w' none [stepSuccessMsg pid d'] false true none
          | .error e =>
            Effects.mk w (some ⟨some "registrationTime", d', some nowMs⟩)
              [errRetryMsg e.message] true false none
        let tryFree := fun (_ : Unit) =>
          let cand := timeCandidate o text
          if times.contains cand then proceed cand else stay timeInvalidMsg
        (match parseChoice text with
         | some c =>
           if 1 ≤ c && c ≤ times.length then proceed (times.getD (c - 1) "")
           else tryFree ()
         | none => tryFree ())
  | _ => Effects.mk w none [resetMsg] false true none

/-! ### NLP bootstrap and top-level message handler -/

/-- JS `name.split(" ")` (split on the literal space character, keeping
empty pieces). -/
def splitChar (sep : Char) : List Char → List (List Char)
  | [] => [[]]
  | c :: rest =>
    if c == sep then [] :: splitChar sep rest
    else
      match splitChar sep rest with
      | h :: t => (c :: h) :: t
      | [] => [[c]]

/-- `name.split(" ")[0]`. -/
def firstNameOf (name : String) : String :=
  String.mk ((splitChar ' ' name.data).headD [])

/-- `name.split(" ").slice(1).join(" ")`. -/
def lastNameOf (name : String) : String :=
  String.intercalate " " (((splitChar ' ' name.data).map String.mk).drop 1)

/-- The conversation data the NLP bootstrap pre-fills (lines 238–249):
every extractor runs independently; a field is assigned only when its
extractor produced a truthy value. -/
def bootData (o : Oracle) (t : String) : RegData :=
  let name := extractNameFromSentence t
  let dt := extractDateTime o t
  { firstName := name.map firstNameOf
    lastName := name.map lastNameOf
    phoneNumber := extractPhone t
    email := extractEmail t
    department := normalizeDepartment t
    gender := normalizeGender t
    registrationDate := if jsTruthy dt.1 then dt.1 else none
    registrationTime := dt.2
    address := none }

/-- The JS trigger `if (phone || email || name || dept || dt.date || dt.time
|| gender)`, phrased on the pre-filled record (equivalent: each extractor is
truthy exactly when its field was assigned a truthy value). -/
def anyExtracted (d : RegData) : Bool :=
  jsTruthy d.firstName || jsTruthy d.email || jsTruthy d.phoneNumber ||
  jsTruthy d.department || jsTruthy d.gender || jsTruthy d.registrationDate ||
  jsTruthy d.registrationTime

/-- The one-shot condition of line 253: `state.data.phoneNumber &&
state.data.department && state.data.registrationDate &&
state.data.registrationTime && state.data.firstName`. -/
def oneShotReady (d : RegData) : Bool :=
  jsTruthy d.phoneNumber && jsTruthy d.department && jsTruthy d.registrationDate &&
  jsTruthy d.registrationTime && jsTruthy d.firstName

/-- `processMessage(sender, text)` from `backend/webhook.js`: trim, greeting
short-circuit (before any state read), state load with idle expiry, NLP
bootstrap when no step is active, step switch otherwise. -/
def processMessage (o : Oracle) (nowMs : Nat) (w : World) (stored : Option StoredDoc)
    (text0 : String) : Effects :=
  let text := trimStr text0
  if isGreeting text then Effects.mk w stored [welcomeMsg] false false none
  else
    let g := getState stored nowMs
    let state := g.1
    let stored₁ := g.2.1
    let del := g.2.2
    match state.step with
    | some _ =>
      let e := handleStep o nowMs w state text
      { e with deletedState := e.deletedState || del }
    | none =>
      let tl := toLowerStr text
      if strContains tl "patient registration" || strContains tl "register me" then
        Effects.mk w (some ⟨some "firstName", {}, some nowMs⟩) [startMsg] true del none
      else
        let d := bootData o text
        if anyExtracted d then
          let st₁ : StoredDoc := ⟨some "firstName", d, some nowMs⟩
          if oneShotReady d then
            match attemptRegistration w d with
            | .ok (pid, w') =>
              Effects.mk w' none [oneShotSuccessMsg pid d] true true none
            | .error e =>
              Effects.mk w (some st₁) [errContinueMsg e.message] true del none
          else Effects.mk w (some st₁) [continueMsg] true del none
        else Effects.mk w stored₁ [notRecognizedMsg] false del none

/-! ## Proof-side harness definitions -/

/-- Replay a sequence of inbound messages through the step switch, starting
from one stored state, accumulating the observable effects (used to state
the idempotence of repeated invalid answers). -/
def handleSeq (o : Oracle) (nowMs : Nat) : List String → World → StoredDoc → Effects
  | [], w, st => Effects.mk w (some st) [] false false none
  | t :: ts, w, st =>
    let e := handleStep o nowMs w st t
    match e.stored with
    | some st' =>
      let e' := handleSeq o nowMs ts e.world st'
      Effects.mk e'.world e'.stored (e.messages ++ e'.messages) (e.wrote || e'.wrote)
        (e.deletedState || e'.deletedState) (e.crashed.orElse (fun _ => e'.crashed))
    | none => e

/-- The inbound text is an invalid answer for the state's current step —
exactly the rejection condition of the corresponding `switch` case of
`processMessage` (for `registrationTime` the state is additionally required
to hold a catalog department, which every state reached through the
`department` step does). -/
def invalidAnswer (o : Oracle) (st : StoredDoc) (text : String) : Prop :=
  match st.step with
  | some "gender" =>
    parseChoice text ≠ some 1 ∧ parseChoice text ≠ some 2 ∧ parseChoice text ≠ some 3 ∧
    normalizeGender text = none
  | some "email" => toLowerStr text ≠ "skip" ∧ validateEmail text = none
  | some "phoneNumber" => validatePhone text = none
  | some "department" =>
    (∀ c, parseChoice text = some c → ¬(1 ≤ c ∧ c ≤ departmentNames.length)) ∧
    normalizeDepartment text = none
  | some "registrationDate" =>
    o.parseDate text = none ∨
    (∃ r, o.parseDate text = some r ∧ jsStrLe r.isoDate o.today = true)
  | some "registrationTime" =>
    ∃ D info, st.data.department = some D ∧ lookupDept D = some info ∧
      (∀ c, parseChoice text = some c →
        ¬(1 ≤ c ∧ c ≤ (hoursBetween info.startTime info.endTime).length)) ∧
      (hoursBetween info.startTime info.endTime).contains (timeCandidate o text) = false
  | _ => False

/-- The four Patient Record fields claim C7 compares between the one-shot
path and the step-by-step path. -/
def recShape (r : PatientRecord) : String × String × String × String :=
  (r.department, r.RegistrationDate, r.RegistrationTime, r.PhoneNumber)

/-- The error component of the `part_000` attempt (which, unlike the
`backend/webhook.js` one, always hands back a world). -/
def p000Err (r : World × Except RegError String) : Option RegError :=
  match r.2 with
  | .error e => some e
  | .ok _ => none

/-! ### Concrete fixtures used by witnesses and counterexamples -/

/-- An oracle for runs in which chrono never parses anything. -/
def oNull : Oracle := ⟨fun _ => none, fun _ => none, "2025-10-11"⟩

/-- A Cardiology slot on 2025-12-01 at 10:00 filled to its capacity of 10,
with the id counter at 1005. -/
def wFull : World :=
  ⟨fun k => if k = "Cardiology_2025-12-01_10:00"
     then some ⟨"Cardiology", "2025-12-01", "10:00", 10, 10,
                ["P1","P2","P3","P4","P5","P6","P7","P8","P9","P10"]⟩
     else none,
   some 1005, []⟩

/-- A fully collected registration aimed at that slot. -/
def dFull : RegData :=
  { firstName := some "X", department := some "Cardiology",
    registrationDate := some "2025-12-01", registrationTime := some "10:00" }

/-- Oracle for the `registrationDate` fixture: chrono resolves
`"2025-12-01"` to that future date. -/
def oDate : Oracle :=
  ⟨fun s => if s = "2025-12-01" then some ⟨"2025-12-01", 0, 0, some true⟩ else none,
   fun _ => none, "2025-10-11"⟩

/-- A conversation sitting at step `registrationDate` with Cardiology
selected. -/
def stAtDate : StoredDoc :=
  ⟨some "registrationDate",
   { firstName := some "John", lastName := some "Doe", gender := some "Male",
     address := some "1 Main St", email := some "",
     phoneNumber := some "+1234567890", department := some "Cardiology" },
   some 0⟩

/-- Oracle for the one-shot fixture: chrono reads the whole sentence as
2025-12-01 10:00. -/
def oShot : Oracle :=
  ⟨fun _ => none,
   fun s => if s = "+1234567890 Cardiology tomorrow at 10am"
            then some (some ⟨"2025-12-01", 10, 0, some false⟩) else none,
   "2025-10-11"⟩

/-- The one-shot fixture message. -/
def tShot : String := "+1234567890 Cardiology tomorrow at 10am"

/-- A conversation sitting at step `registrationTime` with the same values
the one-shot fixture extracts. -/
def stAtTime : StoredDoc :=
  ⟨some "registrationTime",
   { firstName := some "Cardiology", lastName := some "",
     phoneNumber := some "+1234567890", department := some "Cardiology",
     registrationDate := some "2025-12-01" },
   some 0⟩

/-- A conversation sitting at step `email`. -/
def stAtEmail : StoredDoc :=
  ⟨some "email",
   { firstName := some "John", lastName := some "Doe", gender := some "Male",
     address := some "1 Main St" },
   some 0⟩

/-- The inductive invariant of the shared store maintained by the
reservation transaction: every ledger entry belongs to a catalog department,
carries that department's capacity, respects it, counts exactly its occupant
list, and sits under its own slot id; the number of patient documents keyed
by any `(D, T, H)` never exceeds the ledger count under that slot id; and
patient document ids are unique. -/
structure LedgerInv (w : World) : Prop where
  entries : ∀ sid e, w.appointments sid = some e →
    ∃ info, lookupDept e.department = some info ∧ e.capacity = info.capacity ∧
      e.count ≤ e.capacity ∧ e.patients.length = e.count ∧
      sid = mkSlotId e.department e.date e.time
  counts : ∀ D T H, countKey w.patients D T H ≤ ledgerCountAt w (mkSlotId D T H)
  keysNodup : (w.patients.map Prod.fst).Nodup

/-! ## Behavioural sanity checks of the embedded helpers -/

example : hoursBetween "09:00" "12:00" = ["09:00", "10:00", "11:00", "12:00"] := by decide
example : hoursBetween "10:00" "09:00" = [] := by decide
example : lookupDept "Cardiology" = some ⟨"09:00", "12:00", 10⟩ := by decide
example : parseChoice "10:00" = some 10 := by decide
example : parseChoice "123" = none := by decide
example : parseChoice "hello 7." = some 7 := by decide
example : validateEmail "abc" = none := by decide
example : validateEmail "a@b.c" = some "a@b.c" := by decide
example : validateEmail "a@b c.d" = none := by decide
example : isGreeting "Hi there" = true := by decide
example : isGreeting "this" = false := by decide
example : isGreeting "hii" = true := by decide
example : normalizeGender "female" = some "Male" := by decide
example : validatePhone "+91 98765-43210" = some "+919876543210" := by decide
example : validatePhone "12345" = none := by decide
example : normalizeDepartment "i want cardiology please" = some "Cardiology" := by decide
example : extractNameFromSentence "my name is John Smith" = some "John Smith" := by decide
example : extractNameFromSentence "John 12345678901" = some "John" := by decide
example : extractNameFromSentence "book cardiology now" = none := by decide
example : extractPhone "+1234567890" = some "+1234567890" := by decide
example : extractPhone "call 0-1-2" = none := by decide
example : extractEmail "write a@b.com now" = some "a@b.com" := by decide
example : extractEmail "no email here" = none := by decide

/-! ## C10 — greeting short-circuit -/

/-- **C10**: an inbound message recognised as a greeting (a standalone
`hi`/`hey`/`hello`/`hii`/`hy` word, case-insensitively) is answered with the
welcome text and nothing else happens: the store is untouched, the sender's
conversation document is exactly what it was (whatever it was — the result
does not depend on it, reflecting that the greeting branch runs before
`getState`), nothing is written or deleted, and the message is not consumed
by any pending step. -/
theorem greeting_short_circuit (o : Oracle) (nowMs : Nat) (w : World)
    (stored : Option StoredDoc) (text : String)
    (h : isGreeting (trimStr text) = true) :
    processMessage o nowMs w stored text = Effects.mk w stored [welcomeMsg] false false none := by
  simp [processMessage, h]

/-- Witness for C10: `" Hi doc"` sent by a sender who is mid-flow at step
`email` leaves the stored state, the collected fields and the store intact. -/
theorem greeting_short_circuit_witness :
    isGreeting (trimStr " Hi doc") = true ∧
    processMessage oNull 99 wFull (some stAtEmail) " Hi doc" =
      Effects.mk wFull (some stAtEmail) [welcomeMsg] false false none :=
  ⟨by decide, greeting_short_circuit oNull 99 wFull (some stAtEmail) " Hi doc" (by decide)⟩

/-! ## C6 — read-time idle expiry -/

/-- **C6**: on every conversation-state read, a session whose last-activity
timestamp lies more than 30 minutes (in milliseconds) in the past is deleted
and handed to the caller as absent; a session idle for 30 minutes or less is
returned intact with its step and data and is not deleted; a missing session
is absent without a delete.  (The check is the body of `getState` itself —
reads are the only place it happens; the code has no scheduled task.) -/
theorem idle_expiry_read_time :
    (∀ (st : StoredDoc) (t nowMs : Nat), st.updatedAt = some t →
      nowMs - t > 30 * 60 * 1000 → getState (some st) nowMs = (freshState, none, true)) ∧
    (∀ (st : StoredDoc) (t nowMs : Nat), st.updatedAt = some t →
      ¬(nowMs - t > 30 * 60 * 1000) → getState (some st) nowMs = (st, some st, false)) ∧
    (∀ nowMs, getState none nowMs = (freshState, none, false)) := by
  refine ⟨?_, ?_, ?_⟩
  · intro st t nowMs hu hage
    simp [getState, hu, hage]
  · intro st t nowMs hu hage
    simp [getState, hu, hage]
  · intro nowMs; rfl

/-- Witness for C6: a session touched 29 minutes ago survives intact; one
touched 31 minutes ago is deleted and treated as absent. -/
theorem idle_expiry_read_time_witness :
    getState (some stAtEmail) (29 * 60 * 1000) = (stAtEmail, some stAtEmail, false) ∧
    getState (some stAtEmail) (31 * 60 * 1000) = (freshState, none, true) :=
  ⟨idle_expiry_read_time.2.1 stAtEmail 0 (29 * 60 * 1000) rfl (by decide),
   idle_expiry_read_time.1 stAtEmail 0 (31 * 60 * 1000) rfl (by decide)⟩

/-! ## C8 — the `registrationTime` prompt (code bug) -/

/-- **C8** (code bug): when a valid future date is accepted at step
`registrationDate`, the code is supposed to prompt with the department's
time points and their remaining headroom.  What the code actually does at
this input: it advances the state to `registrationTime` and persists it,
then the prompt-building loop evaluates the free identifier `doctorLimits`
(undefined in `backend/webhook.js`) and throws a `ReferenceError` — no
prompt is sent at all.  (Even with `doctorLimits` defined, the loop iterates
over **all** generated time points without filtering the full ones.) -/
theorem registration_date_prompt_crashes :
    (processMessage oDate 1000 World.empty (some stAtDate) "2025-12-01").crashed =
      some doctorLimitsRefErr ∧
    (processMessage oDate 1000 World.empty (some stAtDate) "2025-12-01").messages = [] ∧
    (processMessage oDate 1000 World.empty (some stAtDate) "2025-12-01").wrote = true ∧
    (processMessage oDate 1000 World.empty (some stAtDate) "2025-12-01").stored =
      some ⟨some "registrationTime",
            { firstName := some "John", lastName := some "Doe", gender := some "Male",
              address := some "1 Main St", email := some "",
              phoneNumber := some "+1234567890", department := some "Cardiology",
              registrationDate := some "2025-12-01" },
            some 1000⟩ := by
  refine ⟨by decide, by decide, by decide, by decide⟩

/-! ## C2 — atomicity of the reservation (corrected) -/

/-- Counterexample to **C2** as stated: in the `part_000` variant the
Identifier Counter is incremented by a transaction of its own that commits
before the capacity check.  At this concrete full slot the attempt aborts
with `Slot full`, yet the counter has moved from 1005 to 1006 while no
patient record was written — an aborted attempt does **not** leave the
counter as it was, and the incremented counter has no corresponding patient
record. -/
theorem part000_abort_increments_counter :
    wFull.counter = some 1005 ∧
    p000Err (Part000.attemptRegistration wFull dFull) = some .slotFull ∧
    (Part000.attemptRegistration wFull dFull).1.counter = some 1006 ∧
    (Part000.attemptRegistration wFull dFull).1.patients = wFull.patients := by
  refine ⟨rfl, by decide, by decide, by decide⟩

/-! ## Shared lemmas about `attemptRegistration` -/

/-- A successful attempt pins down all the checks it passed and the
committed world. -/
theorem attempt_ok_spec {w : World} {d : RegData} {pid : String} {w' : World}
    (h : attemptRegistration w d = .ok (pid, w')) :
    ∃ D T H dept, d.department = some D ∧ lookupDept D = some dept ∧
      d.registrationTime = some H ∧ H ∈ hoursBetween dept.startTime dept.endTime ∧
      d.registrationDate = some T ∧
      ledgerCountAt w (mkSlotId D T H) < dept.capacity ∧
      pid = pidStr (cVal w.counter + 1) ∧ w' = commitWorld w d dept D T H := by
  unfold attemptRegistration at h
  split at h
  · exact absurd h (by simp)
  split at h
  · exact absurd h (by simp)
  rename_i D hD
  split at h
  · exact absurd h (by simp)
  rename_i dept hdept
  split at h
  · exact absurd h (by simp)
  rename_i H hH
  split at h
  · exact absurd h (by simp)
  rename_i hmem
  split at h
  · exact absurd h (by simp)
  rename_i hcap
  split at h
  · exact absurd h (by simp)
  rename_i T hT
  rw [hT] at hcap
  refine ⟨D, T, H, dept, hD, hdept, hH, by simpa using hmem, hT, by simpa using hcap, ?_, ?_⟩
  · exact (Prod.mk.injEq _ _ _ _ ▸ Except.ok.inj h).1.symm
  · exact (Prod.mk.injEq _ _ _ _ ▸ Except.ok.inj h).2.symm

/-- The department of a successful lookup is one of the six catalog keys; in
particular it is non-empty and contains no underscore. -/
theorem lookupDept_key_props {D : String} {info : DeptInfo}
    (h : lookupDept D = some info) : D ≠ "" ∧ '_' ∉ D.data := by
  unfold lookupDept at h
  cases hf : departmentSlots.find? (fun p => p.1 == D) with
  | none => rw [hf] at h; exact absurd h (by simp)
  | some p =>
    have hpred := List.find?_some hf
    have hmem := List.mem_of_find?_eq_some hf
    have hD : p.1 = D := by simpa using hpred
    subst hD
    simp only [departmentSlots, List.mem_cons, List.not_mem_nil, or_false] at hmem
    rcases hmem with h1 | h1 | h1 | h1 | h1 | h1 <;> rw [h1] <;> exact ⟨by decide, by decide⟩

/-- Sufficient conditions for an attempt to succeed, with its exact
result. -/
theorem attempt_ok_of {w : World} {d : RegData} {D T H : String} {dept : DeptInfo}
    (hD : d.department = some D) (hdept : lookupDept D = some dept)
    (hH : d.registrationTime = some H) (hmem : H ∈ hoursBetween dept.startTime dept.endTime)
    (hT : d.registrationDate = some T)
    (hcap : ledgerCountAt w (mkSlotId D T H) < dept.capacity) :
    attemptRegistration w d = .ok (pidStr (cVal w.counter + 1), commitWorld w d dept D T H) := by
  have hne : D ≠ "" := (lookupDept_key_props hdept).1
  have htr : jsTruthy d.department = true := by
    rw [hD]; simpa [jsTruthy] using hne
  unfold attemptRegistration
  rw [hD] at htr ⊢
  simp only [htr, Bool.not_true, Bool.false_eq_true, if_false]
  rw [hdept, hH, hT]
  simp [hmem, Nat.not_le_of_lt hcap]

/-- `findDoc` after `setDoc` at the written key returns the written value. -/
theorem findDoc_setDoc (l : List (String × PatientRecord)) (k : String) (v : PatientRecord) :
    findDoc (setDoc l k v) k = some v := by
  unfold setDoc
  by_cases hany : (l.any fun p => p.1 == k) = true
  · rw [if_pos hany]
    induction l with
    | nil => simp at hany
    | cons p rest ih =>
      by_cases hp : (p.1 == k) = true
      · unfold findDoc
        rw [List.map_cons, if_pos hp, List.find?_cons_of_pos _ (by simp)]
        rfl
      · have hany' : (rest.any fun p => p.1 == k) = true := by
          simp only [List.any_cons, Bool.or_eq_true] at hany
          exact hany.resolve_left hp
        unfold findDoc at ih ⊢
        rw [List.map_cons, if_neg hp, List.find?_cons_of_neg _ (by simpa using hp)]
        exact ih hany'
  · rw [if_neg hany]
    unfold findDoc
    have hnone : l.find? (fun p => p.1 == k) = none := by
      rw [List.find?_eq_none]
      intro x hx hpx
      exact hany (List.any_eq_true.mpr ⟨x, hx, hpx⟩)
    rw [List.find?_append, hnone]
    simp

/-- **C2** (amended): in the `backend/webhook.js` variant the reservation
really is atomic — the capacity check, the counter increment, the patient
write and the ledger upsert happen in one Firestore transaction, so an
attempt that throws (missing/invalid department, disallowed time, slot full,
or a store conflict, which Firestore resolves by rerunning or aborting the
whole transaction) leaves the counter, the patients collection and the
ledger exactly as they were, and a successful attempt performs all three
effects together for the same identifier.  (The `part_000` variant violates
the claim as stated: see `part000_abort_increments_counter`.) -/
theorem reservation_transaction_atomic :
    (∀ (w : World) (d : RegData) (e : RegError),
      attemptRegistration w d = .error e → regStep w d = w) ∧
    (∀ (w : World) (d : RegData) (pid : String) (w' : World),
      attemptRegistration w d = .ok (pid, w') →
      w'.counter = some (cVal w.counter + 1) ∧
      pid = pidStr (cVal w.counter + 1) ∧
      ∃ D T H dept,
        d.department = some D ∧ lookupDept D = some dept ∧
        d.registrationDate = some T ∧ d.registrationTime = some H ∧
        findDoc w'.patients pid = some (patientRecOf d D T H pid) ∧
        w'.appointments (mkSlotId D T H) = some (slotEntryOf w dept D T H pid) ∧
        ledgerCountAt w' (mkSlotId D T H) = ledgerCountAt w (mkSlotId D T H) + 1 ∧
        ledgerPatientsAt w' (mkSlotId D T H) =
          ledgerPatientsAt w (mkSlotId D T H) ++ [pid]) := by
  constructor
  · intro w d e h
    simp [regStep, h]
  · intro w d pid w' h
    obtain ⟨D, T, H, dept, hD, hdept, hH, hmem, hT, hcap, hpid, hw'⟩ := attempt_ok_spec h
    subst hw'; subst hpid
    refine ⟨rfl, rfl, D, T, H, dept, hD, hdept, hT, hH, ?_, ?_, ?_, ?_⟩
    · exact findDoc_setDoc _ _ _
    · simp [commitWorld]
    · simp [ledgerCountAt, commitWorld, slotEntryOf]
    · simp [ledgerPatientsAt, commitWorld, slotEntryOf]

/-- Witness for C2 (amended): the full-slot attempt leaves the store
unchanged, and a successful attempt from the empty store commits the counter
at 1001. -/
theorem reservation_transaction_atomic_witness :
    regStep wFull dFull = wFull ∧
    (commitWorld World.empty dFull ⟨"09:00", "12:00", 10⟩ "Cardiology" "2025-12-01"
      "10:00").counter = some (cVal World.empty.counter + 1) :=
  ⟨reservation_transaction_atomic.1 wFull dFull .slotFull (by rfl),
   (reservation_transaction_atomic.2 World.empty dFull (pidStr (cVal World.empty.counter + 1))
     (commitWorld World.empty dFull ⟨"09:00", "12:00", 10⟩ "Cardiology" "2025-12-01" "10:00")
     (by rfl)).1⟩

/-! ## C3 — identifier uniqueness and monotonicity -/

/-- A successful attempt advances the effective counter value by exactly one
and issues exactly that value. -/
theorem attempt_ok_counter {w : World} {d : RegData} {pid : String} {w' : World}
    (h : attemptRegistration w d = .ok (pid, w')) :
    cVal w'.counter = cVal w.counter + 1 ∧ pid = pidStr (cVal w.counter + 1) := by
  obtain ⟨D, T, H, dept, _, _, _, _, _, _, hpid, hw'⟩ := attempt_ok_spec h
  subst hw'
  refine ⟨?_, hpid⟩
  show cVal (some (cVal w.counter + 1)) = cVal w.counter + 1
  simp [cVal]

/-- Every identifier issued along a trace is numerically larger than the
effective counter value at the trace's start. -/
theorem runTrace_counter_lt : ∀ (ds : List RegData) (w : World),
    ∀ p ∈ (runTrace ds w).2, cVal w.counter < p.2 := by
  intro ds
  induction ds with
  | nil => intro w p hp; simp [runTrace] at hp
  | cons d ds ih =>
    intro w p hp
    cases h : attemptRegistration w d with
    | ok pr =>
      obtain ⟨pid, w'⟩ := pr
      simp only [runTrace, h] at hp
      rcases List.mem_cons.mp hp with hhd | htl
      · subst hhd; exact Nat.lt_succ_self _
      · have h1 := ih w' p htl
        have h2 := (attempt_ok_counter h).1
        omega
    | error e =>
      simp only [runTrace, h] at hp
      exact ih w p hp

/-- **C3**: across every serialised sequence of reservation attempts, from
any starting store, the identifiers issued by the successful attempts are
strictly increasing in issuance order (each new numeric part exceeds every
previously issued one), hence pairwise distinct and never reused — failed
attempts in between leave the counter untouched (the increment happens
inside the transaction after the capacity check), so they cannot cause a
reissue.  Every issued identifier string is `"P"` followed by its numeric
part. -/
theorem patient_ids_strictly_increasing (attempts : List RegData) (w₀ : World) :
    ((runTrace attempts w₀).2.Pairwise (fun p q => p.2 < q.2)) ∧
    ((runTrace attempts w₀).2.Pairwise (fun p q => p.2 ≠ q.2)) ∧
    (∀ p ∈ (runTrace attempts w₀).2, p.1 = pidStr p.2) := by
  have main : ∀ (ds : List RegData) (w : World),
      ((runTrace ds w).2.Pairwise (fun p q => p.2 < q.2)) ∧
      (∀ p ∈ (runTrace ds w).2, p.1 = pidStr p.2) := by
    intro ds
    induction ds with
    | nil => intro w; simp [runTrace]
    | cons d ds ih =>
      intro w
      cases h : attemptRegistration w d with
      | ok pr =>
        obtain ⟨pid, w'⟩ := pr
        constructor
        · simp only [runTrace, h]
          refine List.Pairwise.cons ?_ (ih w').1
          intro q hq
          have h1 := runTrace_counter_lt ds w' q hq
          have h2 := (attempt_ok_counter h).1
          omega
        · intro p hp
          simp only [runTrace, h] at hp
          rcases List.mem_cons.mp hp with hhd | htl
          · subst hhd; exact (attempt_ok_counter h).2
          · exact (ih w').2 p htl
      | error e =>
        constructor
        · simp only [runTrace, h]; exact (ih w).1
        · intro p hp; simp only [runTrace, h] at hp; exact (ih w).2 p hp
  exact ⟨(main attempts w₀).1, (main attempts w₀).1.imp (fun h => Nat.ne_of_lt h),
         (main attempts w₀).2⟩

/-! ## C4 — the time-slot generator -/

/-- `range'` with step 1 is strictly increasing. -/
theorem pairwise_lt_range'_one : ∀ (n s : Nat), (List.range' s n).Pairwise (· < ·) := by
  intro n
  induction n with
  | zero => intro s; simp
  | succ n ih =>
    intro s
    refine List.Pairwise.cons ?_ (ih (s + 1))
    intro m hm
    obtain ⟨i, _, rfl⟩ := List.mem_range'.mp hm
    omega

/-- The `HH:00` labels of hours below 24 are strictly increasing in the JS
string order. -/
theorem fmtSlot_lt : ∀ b < 24, ∀ a < b,
    jsStrLtList (fmtSlot a).data (fmtSlot b).data = true := by decide

/-- **C4**: for every window whose parsed opening hour is at most its
parsed closing hour (at most 23, as in every `HH:MM` window of the
catalog), `hoursBetween` returns exactly the hour labels from open to close
inclusive at a one-hour step, zero-padded `HH:00`, in strictly increasing
(JS string) order, one label per hour; and the result depends only on the
parsed hours, so two calls on the same window always return the same
sequence.  The 09:00–12:00 window yields exactly
09:00, 10:00, 11:00, 12:00. -/
theorem timeslot_generator_correct :
    (∀ (a b : String) (s e : Nat),
      jsParseIntNat (hourField a) = some s → jsParseIntNat (hourField b) = some e →
      s ≤ e → e ≤ 23 →
      hoursBetween a b = (List.range' s (e + 1 - s)).map fmtSlot ∧
      (hoursBetween a b).length = e + 1 - s ∧
      (hoursBetween a b).Pairwise (fun x y => jsStrLtList x.data y.data = true) ∧
      (∀ a' b', jsParseIntNat (hourField a') = some s →
        jsParseIntNat (hourField b') = some e → hoursBetween a' b' = hoursBetween a b)) ∧
    hoursBetween "09:00" "12:00" = ["09:00", "10:00", "11:00", "12:00"] := by
  constructor
  · intro a b s e ha hb hse he23
    have heq : hoursBetween a b = (List.range' s (e + 1 - s)).map fmtSlot := by
      unfold hoursBetween; rw [ha, hb]
    refine ⟨heq, ?_, ?_, ?_⟩
    · rw [heq, List.length_map, List.length_range']
    · rw [heq, List.pairwise_map]
      refine List.Pairwise.imp_of_mem ?_ (pairwise_lt_range'_one (e + 1 - s) s)
      intro x y hx hy hxy
      obtain ⟨i, hi, rfl⟩ := List.mem_range'.mp hy
      exact fmtSlot_lt _ (by omega) _ hxy
    · intro a' b' ha' hb'
      rw [heq]; unfold hoursBetween; rw [ha', hb']
  · decide

/-- Witness for C4, at the Cardiology window 09:00–12:00. -/
theorem timeslot_generator_correct_witness :
    hoursBetween "09:00" "12:00" = (List.range' 9 (12 + 1 - 9)).map fmtSlot :=
  (timeslot_generator_correct.1 "09:00" "12:00" 9 12 (by decide) (by decide)
    (by decide) (by decide)).1

/-! ## C5 — invalid answers are idempotent -/

set_option maxHeartbeats 1600000 in
/-- **C5**: at every validating step (`gender`, `email`, `phoneNumber`,
`department`, `registrationDate`, `registrationTime`), an invalid answer
leaves everything unchanged: the store is untouched, the stored conversation
document is exactly the one that was read (same step, same collected
fields), `setState` is never called, nothing is deleted, and the user is
sent exactly one re-prompt; consequently any number N of consecutive invalid
answers is idempotent — the final state equals the initial one, no write
ever happens, and the user was re-prompted once per message. -/
theorem invalid_answer_idempotent :
    (∀ (o : Oracle) (nowMs : Nat) (w : World) (st : StoredDoc) (text : String),
      invalidAnswer o st text →
      ∃ msg, handleStep o nowMs w st text = Effects.mk w (some st) [msg] false false none) ∧
    (∀ (o : Oracle) (nowMs : Nat) (w : World) (st : StoredDoc) (texts : List String),
      (∀ t ∈ texts, invalidAnswer o st t) →
      (handleSeq o nowMs texts w st).world = w ∧
      (handleSeq o nowMs texts w st).stored = some st ∧
      (handleSeq o nowMs texts w st).wrote = false ∧
      (handleSeq o nowMs texts w st).deletedState = false ∧
      (handleSeq o nowMs texts w st).crashed = none ∧
      (handleSeq o nowMs texts w st).messages.length = texts.length) := by
  have single : ∀ (o : Oracle) (nowMs : Nat) (w : World) (st : StoredDoc) (text : String),
      invalidAnswer o st text →
      ∃ msg, handleStep o nowMs w st text = Effects.mk w (some st) [msg] false false none := by
    intro o nowMs w st text hinv
    unfold invalidAnswer at hinv
    split at hinv
    -- gender
    · rename_i heq
      obtain ⟨h1, h2, h3, h4⟩ := hinv
      refine ⟨genderInvalidMsg, ?_⟩
      simp [handleStep, heq, beq_iff_eq, h1, h2, h3, h4]
    -- email
    · rename_i heq
      obtain ⟨h1, h2⟩ := hinv
      refine ⟨emailInvalidMsg, ?_⟩
      simp [handleStep, heq, beq_iff_eq, h1, h2]
    -- phoneNumber
    · rename_i heq
      refine ⟨phoneInvalidMsg, ?_⟩
      simp [handleStep, heq, hinv]
    -- department
    · rename_i heq
      obtain ⟨h1, h2⟩ := hinv
      refine ⟨deptInvalidMsg, ?_⟩
      cases hc : parseChoice text with
      | none => simp [handleStep, heq, hc, h2]
      | some c =>
        have hcb : (1 ≤ c && c ≤ departmentNames.length) = false := by
          have := h1 c hc
          simp only [Bool.and_eq_true, decide_eq_true_eq] at *
          by_contra hb
          simp only [Bool.not_eq_false, Bool.and_eq_true, decide_eq_true_eq] at hb
          exact this hb
        simp [handleStep, heq, hc, hcb, h2]
    -- registrationDate
    · rename_i heq
      rcases hinv with h1 | ⟨r, h1, h2⟩
      · refine ⟨dateUnparseableMsg, ?_⟩
        simp [handleStep, heq, h1]
      · refine ⟨dateNotFutureMsg, ?_⟩
        simp [handleStep, heq, h1, h2]
    -- registrationTime
    · rename_i heq
      obtain ⟨D, info, hD, hinfo, h1, h2⟩ := hinv
      have h2' : timeCandidate o text ∉ hoursBetween info.startTime info.endTime := by
        simpa using h2
      refine ⟨timeInvalidMsg, ?_⟩
      cases hc : parseChoice text with
      | none => simp [handleStep, heq, hD, hinfo, hc, h2']
      | some c =>
        have hcb : (1 ≤ c && c ≤ (hoursBetween info.startTime info.endTime).length) = false := by
          have := h1 c hc
          by_contra hb
          simp only [Bool.not_eq_false, Bool.and_eq_true, decide_eq_true_eq] at hb
          exact this hb
        simp [handleStep, heq, hD, hinfo, hc, hcb, h2']
    -- every other step: `invalidAnswer` is `False`
    · exact absurd hinv (by simp)
  refine ⟨single, ?_⟩
  intro o nowMs w st texts hall
  induction texts with
  | nil => exact ⟨rfl, rfl, rfl, rfl, rfl, rfl⟩
  | cons t ts ih =>
    obtain ⟨msg, hmsg⟩ := single o nowMs w st t (hall t (List.mem_cons_self t ts))
    have hall' : ∀ t' ∈ ts, invalidAnswer o st t' := fun t' ht' =>
      hall t' (List.mem_cons_of_mem t ht')
    obtain ⟨ihw, ihs, ihwr, ihd, ihc, ihm⟩ := ih hall'
    unfold handleSeq
    rw [hmsg]
    exact ⟨ihw, ihs, by simp [ihwr], by simp [ihd], by simpa using ihc, by simp [ihm]⟩

/-- Witness for C5: two consecutive invalid e-mails at step `email` leave the
state byte-for-byte identical with no write. -/
theorem invalid_answer_idempotent_witness :
    (handleSeq oNull 7 ["not-an-email", "still wrong"] wFull stAtEmail).stored =
      some stAtEmail ∧
    (handleSeq oNull 7 ["not-an-email", "still wrong"] wFull stAtEmail).wrote = false :=
  ⟨(invalid_answer_idempotent.2 oNull 7 wFull stAtEmail ["not-an-email", "still wrong"]
     (by intro t ht; fin_cases ht <;> exact ⟨by decide, by decide⟩)).2.1,
   (invalid_answer_idempotent.2 oNull 7 wFull stAtEmail ["not-an-email", "still wrong"]
     (by intro t ht; fin_cases ht <;> exact ⟨by decide, by decide⟩)).2.2.1⟩

/-! ## C1 — the capacity invariant -/

/-- Splitting at an underscore separator is unambiguous when neither prefix
contains an underscore. -/
theorem uscore_split_inj : ∀ (d₁ d₂ r₁ r₂ : List Char), '_' ∉ d₁ → '_' ∉ d₂ →
    d₁ ++ '_' :: r₁ = d₂ ++ '_' :: r₂ → d₁ = d₂ ∧ r₁ = r₂ := by
  intro d₁
  induction d₁ with
  | nil =>
    intro d₂ r₁ r₂ _ h₂ heq
    cases d₂ with
    | nil => simpa using heq
    | cons c d₂' =>
      simp only [List.nil_append, List.cons_append, List.cons.injEq] at heq
      exact absurd (heq.1 ▸ List.mem_cons_self c d₂') h₂
  | cons c d₁' ih =>
    intro d₂ r₁ r₂ h₁ h₂ heq
    cases d₂ with
    | nil =>
      simp only [List.cons_append, List.nil_append, List.cons.injEq] at heq
      exact absurd (heq.1 ▸ List.mem_cons_self c d₁') h₁
    | cons c₂ d₂' =>
      simp only [List.cons_append, List.cons.injEq] at heq
      have h₁' : '_' ∉ d₁' := fun hm => h₁ (List.mem_cons_of_mem c hm)
      have h₂' : '_' ∉ d₂' := fun hm => h₂ (List.mem_cons_of_mem c₂ hm)
      obtain ⟨hd, hr⟩ := ih d₂' r₁ r₂ h₁' h₂' heq.2
      exact ⟨by rw [heq.1, hd], hr⟩

/-- The character content of a slot id. -/
theorem mkSlotId_data (D T H : String) :
    (mkSlotId D T H).data = D.data ++ '_' :: (T.data ++ '_' :: H.data) := by
  show (D ++ "_" ++ T ++ "_" ++ H).data = _
  simp [String.data_append]

/-- Two slot ids built from underscore-free department names agree on the
department component whenever they are equal (dates may contain
underscores; this direction needs only the department prefixes). -/
theorem mkSlotId_dept_inj {D₁ T₁ H₁ D₂ T₂ H₂ : String}
    (h₁ : '_' ∉ D₁.data) (h₂ : '_' ∉ D₂.data)
    (h : mkSlotId D₁ T₁ H₁ = mkSlotId D₂ T₂ H₂) : D₁ = D₂ := by
  have hdata := congrArg String.data h
  rw [mkSlotId_data, mkSlotId_data] at hdata
  obtain ⟨hD, _⟩ := uscore_split_inj D₁.data D₂.data _ _ h₁ h₂ hdata
  cases D₁; cases D₂; exact congrArg String.mk (by simpa using hD)

/-- Appending one document adds its key's contribution to `countKey`. -/
theorem countKey_append (l : List (String × PatientRecord)) (k : String) (v : PatientRecord)
    (D T H : String) :
    countKey (l ++ [(k, v)]) D T H =
      countKey l D T H + (if recMatches v D T H then 1 else 0) := by
  unfold countKey
  rw [List.filter_append]
  by_cases hm : recMatches v D T H <;> simp [hm]

/-- Replacing a key that does not occur is the identity. -/
theorem map_replace_id (l : List (String × PatientRecord)) (k : String) (v : PatientRecord)
    (h : ∀ q ∈ l, q.1 ≠ k) :
    l.map (fun p => if p.1 == k then (k, v) else p) = l := by
  induction l with
  | nil => rfl
  | cons p rest ih =>
    have hp : ¬((p.1 == k) = true) := by
      simpa using h p (List.mem_cons_self p rest)
    rw [List.map_cons, if_neg hp, ih (fun q hq => h q (List.mem_cons_of_mem p hq))]

/-- Overwriting one document (unique keys) adds at most the new document's
contribution to `countKey`. -/
theorem countKey_mapReplace_le (l : List (String × PatientRecord)) (k : String)
    (v : PatientRecord) (D T H : String) (hnd : (l.map Prod.fst).Nodup) :
    countKey (l.map (fun p => if p.1 == k then (k, v) else p)) D T H ≤
      countKey l D T H + (if recMatches v D T H then 1 else 0) := by
  induction l with
  | nil => simp [countKey]
  | cons p rest ih =>
    rw [List.map_cons, List.nodup_cons] at hnd
    obtain ⟨hnotin, hnd'⟩ := hnd
    by_cases hp : (p.1 == k) = true
    · have hk : p.1 = k := by simpa using hp
      have hrest : rest.map (fun q => if q.1 == k then (k, v) else q) = rest := by
        apply map_replace_id
        intro q hq hqk
        apply hnotin
        rw [hk, ← hqk]
        exact List.mem_map_of_mem Prod.fst hq
      rw [List.map_cons, if_pos hp, hrest]
      unfold countKey
      rw [List.filter_cons, List.filter_cons]
      by_cases hv : recMatches v D T H <;> by_cases hpm : recMatches p.2 D T H <;>
        simp [hv, hpm]
    · rw [List.map_cons, if_neg hp]
      unfold countKey at ih ⊢
      rw [List.filter_cons, List.filter_cons]
      have := ih hnd'
      by_cases hpm : recMatches p.2 D T H <;> simp [hpm] at this ⊢ <;> omega

/-- `setDoc` adds at most the new document's contribution to `countKey`. -/
theorem countKey_setDoc_le (l : List (String × PatientRecord)) (k : String)
    (v : PatientRecord) (D T H : String) (hnd : (l.map Prod.fst).Nodup) :
    countKey (setDoc l k v) D T H ≤
      countKey l D T H + (if recMatches v D T H then 1 else 0) := by
  unfold setDoc
  split
  · exact countKey_mapReplace_le l k v D T H hnd
  · exact (countKey_append l k v D T H).le

/-- `setDoc` keeps document ids unique. -/
theorem setDoc_keys_nodup (l : List (String × PatientRecord)) (k : String)
    (v : PatientRecord) (hnd : (l.map Prod.fst).Nodup) :
    ((setDoc l k v).map Prod.fst).Nodup := by
  unfold setDoc
  split
  · rename_i hany
    have heq : (l.map (fun p => if p.1 == k then (k, v) else p)).map Prod.fst =
        l.map Prod.fst := by
      rw [List.map_map]
      apply List.map_congr_left
      intro p _
      by_cases hp : (p.1 == k) = true
      · have : p.1 = k := by simpa using hp
        simp [Function.comp, hp, this]
      · simp [Function.comp, hp]
    rw [heq]; exact hnd
  · rename_i hany
    have hk : k ∉ l.map Prod.fst := by
      intro hmem
      obtain ⟨p, hp, hpk⟩ := List.mem_map.mp hmem
      exact hany (List.any_eq_true.mpr ⟨p, hp, by simpa using hpk⟩)
    rw [List.map_append]
    simp [List.nodup_append, hnd, hk]

/-- The empty store satisfies the ledger invariant. -/
theorem ledgerInv_empty : LedgerInv World.empty := by
  refine ⟨?_, ?_, ?_⟩
  · intro sid e h; exact absurd h (by simp [World.empty])
  · intro D T H; simp [countKey, World.empty]
  · simp [World.empty]

/-- One reservation attempt (successful or not) preserves the ledger
invariant. -/
theorem ledgerInv_step (w : World) (d : RegData) (hinv : LedgerInv w) :
    LedgerInv (regStep w d) := by
  cases h : attemptRegistration w d with
  | error e => simpa [regStep, h] using hinv
  | ok pr =>
    obtain ⟨pid, w'⟩ := pr
    obtain ⟨D, T, H, dept, hD, hdept, hH, hmem, hT, hcap, hpid, hw'⟩ := attempt_ok_spec h
    have hreg : regStep w d = w' := by simp [regStep, h]
    rw [hreg, hw']
    subst hpid
    -- occupant list length matches the count read for the target slot
    have hlen : (ledgerPatientsAt w (mkSlotId D T H)).length =
        ledgerCountAt w (mkSlotId D T H) := by
      cases hw : w.appointments (mkSlotId D T H) with
      | none => simp [ledgerPatientsAt, ledgerCountAt, hw]
      | some e₀ =>
        obtain ⟨_, _, _, hl, _⟩ := (hinv.entries _ e₀ hw).choose_spec
        simp [ledgerPatientsAt, ledgerCountAt, hw, hl]
    refine ⟨?_, ?_, ?_⟩
    · intro sid₀ e he
      by_cases hs : sid₀ = mkSlotId D T H
      · subst hs
        have he' : e = slotEntryOf w dept D T H (pidStr (cVal w.counter + 1)) := by
          simpa [commitWorld] using he.symm
        subst he'
        refine ⟨dept, by simpa [slotEntryOf] using hdept, rfl, ?_, ?_, ?_⟩
        · show ledgerCountAt w (mkSlotId D T H) + 1 ≤ dept.capacity
          omega
        · show (ledgerPatientsAt w (mkSlotId D T H) ++ _).length =
            ledgerCountAt w (mkSlotId D T H) + 1
          simp [hlen]
        · simp [slotEntryOf]
      · have he' : w.appointments sid₀ = some e := by
          simpa [commitWorld, hs] using he
        exact hinv.entries sid₀ e he'
    · intro D₀ T₀ H₀
      have hbound := countKey_setDoc_le w.patients (pidStr (cVal w.counter + 1))
        (patientRecOf d D T H (pidStr (cVal w.counter + 1))) D₀ T₀ H₀ hinv.keysNodup
      have hcounts := hinv.counts D₀ T₀ H₀
      have hpat : (commitWorld w d dept D T H).patients =
          setDoc w.patients (pidStr (cVal w.counter + 1))
            (patientRecOf d D T H (pidStr (cVal w.counter + 1))) := rfl
      rw [hpat]
      by_cases hm : recMatches (patientRecOf d D T H (pidStr (cVal w.counter + 1))) D₀ T₀ H₀
      · -- the new record carries exactly the key (D, T, H)
        have hkey : D = D₀ ∧ T = T₀ ∧ H = H₀ := by
          have := hm
          simp only [recMatches, patientRecOf, Bool.and_eq_true, beq_iff_eq] at this
          exact ⟨this.1.1, this.1.2, this.2⟩
        obtain ⟨rfl, rfl, rfl⟩ := hkey
        have hled : ledgerCountAt (commitWorld w d dept D T H) (mkSlotId D T H) =
            ledgerCountAt w (mkSlotId D T H) + 1 := by
          simp [ledgerCountAt, commitWorld, slotEntryOf]
        rw [hled]
        simp only [hm, if_true] at hbound
        omega
      · have hled : ledgerCountAt w (mkSlotId D₀ T₀ H₀) ≤
            ledgerCountAt (commitWorld w d dept D T H) (mkSlotId D₀ T₀ H₀) := by
          by_cases hs : mkSlotId D₀ T₀ H₀ = mkSlotId D T H
          · rw [hs]; simp [ledgerCountAt, commitWorld, slotEntryOf]
          · simp [ledgerCountAt, commitWorld, hs]
        rw [if_neg (by simpa using hm)] at hbound
        omega
    · exact setDoc_keys_nodup _ _ _ hinv.keysNodup

/-- Any serialised trace of attempts preserves the invariant. -/
theorem ledgerInv_runAll (attempts : List RegData) (w : World) (hinv : LedgerInv w) :
    LedgerInv (runAll attempts w) := by
  induction attempts generalizing w with
  | nil => exact hinv
  | cons d ds ih => exact ih (regStep w d) (ledgerInv_step w d hinv)

/-- **C1**: the slot-ledger capacity invariant.  (1) An attempt against a
slot whose current count has reached the department's declared capacity
aborts with the `Slot full` error and leaves the store unchanged.  (2) A
successful attempt increases that slot's count by exactly one and appends
exactly one patient identifier to its occupant list.  (3) Hence, over any
serialisation of any set of concurrent reservation attempts started from
the empty store (Firestore serialises the transactions), the number of
Patient Records keyed `(D, T, H)` never exceeds D's declared capacity. -/
theorem slot_capacity_never_exceeded :
    (∀ (w : World) (d : RegData) (D T H : String) (dept : DeptInfo),
      d.department = some D → lookupDept D = some dept →
      d.registrationTime = some H → H ∈ hoursBetween dept.startTime dept.endTime →
      d.registrationDate = some T →
      ledgerCountAt w (mkSlotId D T H) ≥ dept.capacity →
      attemptRegistration w d = .error .slotFull ∧ regStep w d = w) ∧
    (∀ (w : World) (d : RegData) (pid : String) (w' : World),
      attemptRegistration w d = .ok (pid, w') →
      ∃ D T H, d.department = some D ∧ d.registrationDate = some T ∧
        d.registrationTime = some H ∧
        ledgerCountAt w' (mkSlotId D T H) = ledgerCountAt w (mkSlotId D T H) + 1 ∧
        ledgerPatientsAt w' (mkSlotId D T H) =
          ledgerPatientsAt w (mkSlotId D T H) ++ [pid]) ∧
    (∀ (attempts : List RegData) (D T H : String) (dept : DeptInfo),
      lookupDept D = some dept →
      countKey (runAll attempts World.empty).patients D T H ≤ dept.capacity) := by
  refine ⟨?_, ?_, ?_⟩
  · intro w d D T H dept hD hdept hH hmem hT hcap
    have hne : D ≠ "" := (lookupDept_key_props hdept).1
    have htr : jsTruthy d.department = true := by rw [hD]; simpa [jsTruthy] using hne
    have herr : attemptRegistration w d = .error .slotFull := by
      unfold attemptRegistration
      rw [hD] at htr ⊢
      simp only [htr, Bool.not_true, Bool.false_eq_true, if_false]
      rw [hdept, hH, hT]
      simp [hmem, hcap]
    exact ⟨herr, by simp [regStep, herr]⟩
  · intro w d pid w' h
    obtain ⟨D, T, H, dept, hD, hdept, hH, hmem, hT, hcap, hpid, hw'⟩ := attempt_ok_spec h
    subst hw'; subst hpid
    refine ⟨D, T, H, hD, hT, hH, ?_, ?_⟩
    · simp [ledgerCountAt, commitWorld, slotEntryOf]
    · simp [ledgerPatientsAt, commitWorld, slotEntryOf]
  · intro attempts D T H dept hdept
    have hinv := ledgerInv_runAll attempts World.empty ledgerInv_empty
    have hc := hinv.counts D T H
    cases hw : (runAll attempts World.empty).appointments (mkSlotId D T H) with
    | none =>
      have : ledgerCountAt (runAll attempts World.empty) (mkSlotId D T H) = 0 := by
        simp [ledgerCountAt, hw]
      omega
    | some e =>
      obtain ⟨info, hinfo, hcapeq, hcnt, _, hsid⟩ := hinv.entries _ e hw
      have hDe : D = e.department :=
        mkSlotId_dept_inj (lookupDept_key_props hdept).2 (lookupDept_key_props hinfo).2 hsid
      have hinfo' : info = dept := by
        rw [← hDe] at hinfo
        rw [hdept] at hinfo
        exact (Option.some.inj hinfo).symm
      have hcapd : info.capacity = dept.capacity := by rw [hinfo']
      have hlc : ledgerCountAt (runAll attempts World.empty) (mkSlotId D T H) = e.count := by
        simp [ledgerCountAt, hw]
      omega

/-- Witness for C1: the full Cardiology slot rejects a further attempt with
`Slot full`, and three attempts from the empty store stay within the
capacity of 10. -/
theorem slot_capacity_never_exceeded_witness :
    attemptRegistration wFull dFull = .error .slotFull ∧
    countKey (runAll [dFull, dFull, dFull] World.empty).patients
      "Cardiology" "2025-12-01" "10:00" ≤ 10 :=
  ⟨(slot_capacity_never_exceeded.1 wFull dFull "Cardiology" "2025-12-01" "10:00"
      ⟨"09:00", "12:00", 10⟩ rfl (by decide) rfl (by decide) rfl (by decide)).1,
   slot_capacity_never_exceeded.2.2 [dFull, dFull, dFull]
      "Cardiology" "2025-12-01" "10:00" ⟨"09:00", "12:00", 10⟩ (by decide)⟩

/-! ## C9 — partial NLP extraction (corrected) -/

/-- Counterexample to **C9** as stated: the message `"John 12345678901"`
yields a name and a phone number but no department, so not all core fields
are present; the claim says the dialogue then starts *at the first field not
yet filled* (so the extracted first name is not asked again), but the code
unconditionally enters at step `firstName` and immediately re-asks for the
first name even though `firstName` is already pre-filled with `"John"`. -/
theorem prefill_restarts_at_firstName :
    (processMessage oNull 0 World.empty none "John 12345678901").stored =
      some ⟨some "firstName", bootData oNull "John 12345678901", some 0⟩ ∧
    (bootData oNull "John 12345678901").firstName = some "John" ∧
    (bootData oNull "John 12345678901").phoneNumber = some "12345678901" ∧
    (bootData oNull "John 12345678901").department = none ∧
    (processMessage oNull 0 World.empty none "John 12345678901").messages = [continueMsg] := by
  refine ⟨by decide, by decide, by decide, by decide, by decide⟩

set_option maxHeartbeats 1600000 in
/-- **C9** (amended): when an out-of-session message yields at least one
extracted field, the extracted values are pre-filled into the conversation
data and the dialogue enters the step flow **always at step `firstName`**
(the first step — not at the first unfilled field; pre-filled fields are
re-asked and overwritten as their steps replay), and the state is persisted;
only when phone number, department, date, time and first name are all
present is a booking attempted directly (succeeding or falling back to the
step flow at `firstName`). -/
theorem nlp_prefill_behavior (o : Oracle) (nowMs : Nat) (w : World)
    (stored : Option StoredDoc) (text : String)
    (hg : isGreeting (trimStr text) = false)
    (hstep : (getState stored nowMs).1.step = none)
    (hpr : strContains (toLowerStr (trimStr text)) "patient registration" = false)
    (hrm : strContains (toLowerStr (trimStr text)) "register me" = false)
    (hany : anyExtracted (bootData o (trimStr text)) = true) :
    (oneShotReady (bootData o (trimStr text)) = false →
      processMessage o nowMs w stored text =
        Effects.mk w (some ⟨some "firstName", bootData o (trimStr text), some nowMs⟩)
          [continueMsg] true (getState stored nowMs).2.2 none) ∧
    (oneShotReady (bootData o (trimStr text)) = true →
      (∃ pid w', attemptRegistration w (bootData o (trimStr text)) = .ok (pid, w') ∧
        processMessage o nowMs w stored text =
          Effects.mk w' none [oneShotSuccessMsg pid (bootData o (trimStr text))]
            true true none) ∨
      (∃ e, attemptRegistration w (bootData o (trimStr text)) = .error e ∧
        processMessage o nowMs w stored text =
          Effects.mk w (some ⟨some "firstName", bootData o (trimStr text), some nowMs⟩)
            [errContinueMsg e.message] true (getState stored nowMs).2.2 none)) := by
  constructor
  · intro hnr
    simp [processMessage, hg, hstep, hpr, hrm, hany, hnr]
  · intro hr
    cases hatt : attemptRegistration w (bootData o (trimStr text)) with
    | ok pr =>
      obtain ⟨pid, w'⟩ := pr
      left
      exact ⟨pid, w', rfl, by simp [processMessage, hg, hstep, hpr, hrm, hany, hr, hatt]⟩
    | error e =>
      right
      exact ⟨e, rfl, by simp [processMessage, hg, hstep, hpr, hrm, hany, hr, hatt]⟩

/-- Witness for the amended C9, on the counterexample input. -/
theorem nlp_prefill_behavior_witness :
    processMessage oNull 0 World.empty none "John 12345678901" =
      Effects.mk World.empty
        (some ⟨some "firstName", bootData oNull "John 12345678901", some 0⟩)
        [continueMsg] true (getState none 0).2.2 none :=
  (nlp_prefill_behavior oNull 0 World.empty none "John 12345678901"
    (by decide) (by decide) (by decide) (by decide) (by decide)).1 (by decide)

/-! ## C7 — one-shot booking vs step flow -/

set_option maxHeartbeats 1600000 in
/-- **C7**: a single out-of-session free-text message from which the
extractors obtain a catalog department, a date, a valid time in the
department's window and a phone number (plus the always-extracted first
name: any message naming a capitalised department yields one) triggers an
immediate one-shot reservation attempt; the Patient Record it writes has
the same shape — identical `department`, `RegistrationDate`,
`RegistrationTime` and `PhoneNumber` values — as the record written by the
step-by-step flow completing at `registrationTime` with the same four
values: both equal `(D, T, H, p)`. -/
theorem oneshot_matches_step_flow (o : Oracle) (nowMs : Nat) (w : World) (text : String)
    (D T H p : String) (dept : DeptInfo)
    (hg : isGreeting (trimStr text) = false)
    (hpr : strContains (toLowerStr (trimStr text)) "patient registration" = false)
    (hrm : strContains (toLowerStr (trimStr text)) "register me" = false)
    (hD : (bootData o (trimStr text)).department = some D)
    (hT : (bootData o (trimStr text)).registrationDate = some T)
    (hH : (bootData o (trimStr text)).registrationTime = some H)
    (hp : (bootData o (trimStr text)).phoneNumber = some p)
    (hf : jsTruthy (bootData o (trimStr text)).firstName = true)
    (hpne : p ≠ "") (hTne : T ≠ "") (hHne : H ≠ "")
    (hdept : lookupDept D = some dept)
    (hmem : H ∈ hoursBetween dept.startTime dept.endTime)
    (hcap : ledgerCountAt w (mkSlotId D T H) < dept.capacity) :
    (∃ pid w',
      attemptRegistration w (bootData o (trimStr text)) = .ok (pid, w') ∧
      processMessage o nowMs w none text =
        Effects.mk w' none [oneShotSuccessMsg pid (bootData o (trimStr text))] true true none ∧
      findDoc w'.patients pid =
        some (patientRecOf (bootData o (trimStr text)) D T H pid) ∧
      recShape (patientRecOf (bootData o (trimStr text)) D T H pid) = (D, T, H, p)) ∧
    (∀ (o₂ : Oracle) (nowMs₂ : Nat) (w₂ : World) (st₂ : StoredDoc) (text₂ : String),
      st₂.step = some "registrationTime" →
      st₂.data.department = some D → st₂.data.registrationDate = some T →
      st₂.data.phoneNumber = some p →
      parseChoice text₂ = none → timeCandidate o₂ text₂ = H →
      ledgerCountAt w₂ (mkSlotId D T H) < dept.capacity →
      ∃ pid₂ w₂',
        attemptRegistration w₂ { st₂.data with registrationTime := some H } = .ok (pid₂, w₂') ∧
        handleStep o₂ nowMs₂ w₂ st₂ text₂ =
          Effects.mk w₂' none
            [stepSuccessMsg pid₂ { st₂.data with registrationTime := some H }] false true none ∧
        findDoc w₂'.patients pid₂ =
          some (patientRecOf { st₂.data with registrationTime := some H } D T H pid₂) ∧
        recShape (patientRecOf { st₂.data with registrationTime := some H } D T H pid₂) =
          (D, T, H, p)) := by
  constructor
  · have hok := attempt_ok_of (w := w) hD hdept hH hmem hT hcap
    refine ⟨_, _, hok, ?_, ?_, ?_⟩
    · have hDne := (lookupDept_key_props hdept).1
      have hany : anyExtracted (bootData o (trimStr text)) = true := by
        simp [anyExtracted, hf]
      have hready : oneShotReady (bootData o (trimStr text)) = true := by
        unfold oneShotReady
        rw [hp, hD, hT, hH, hf]
        simp [jsTruthy, hpne, hDne, hTne, hHne]
      simp [processMessage, getState, freshState, hg, hpr, hrm, hany, hready, hok]
    · exact findDoc_setDoc _ _ _
    · simp [recShape, patientRecOf, hp]
  · intro o₂ nowMs₂ w₂ st₂ text₂ hstep hD₂ hT₂ hp₂ hch hcand hcap₂
    have hok₂ : attemptRegistration w₂ { st₂.data with registrationTime := some H } =
        .ok (pidStr (cVal w₂.counter + 1),
             commitWorld w₂ { st₂.data with registrationTime := some H } dept D T H) :=
      attempt_ok_of (by simpa using hD₂) hdept (by simp) hmem (by simpa using hT₂) hcap₂
    refine ⟨_, _, hok₂, ?_, ?_, ?_⟩
    · have hcont : (hoursBetween dept.startTime dept.endTime).contains H = true := by
        simpa using hmem
      unfold handleStep
      rw [hstep]
      simp only [hD₂, hdept, hch, hcand, hcont]
      rw [← hD₂]
      simp [hok₂]
    · exact findDoc_setDoc _ _ _
    · simp [recShape, patientRecOf, hp₂]

/-- Witness for C7: the fixture message books Cardiology 2025-12-01 10:00
one-shot, and the written record's shape is exactly those values plus the
extracted phone number. -/
theorem oneshot_matches_step_flow_witness :
    ∃ pid w',
      attemptRegistration World.empty (bootData oShot (trimStr tShot)) = .ok (pid, w') ∧
      recShape (patientRecOf (bootData oShot (trimStr tShot))
          "Cardiology" "2025-12-01" "10:00" pid) =
        ("Cardiology", "2025-12-01", "10:00", "+1234567890") := by
  obtain ⟨pid, w', hok, _, _, hsh⟩ := (oneshot_matches_step_flow oShot 0 World.empty tShot
    "Cardiology" "2025-12-01" "10:00" "+1234567890" ⟨"09:00", "12:00", 10⟩
    (by decide) (by decide) (by decide) (by decide) (by decide) (by decide) (by decide)
    (by decide) (by decide) (by decide) (by decide) (by decide) (by decide) (by decide)).1
  exact ⟨pid, w', hok, hsh⟩
